import Mathlib

/-!
Shallow embedding of `src/kube.py` (class `KubeOperation`).

The cluster API server is modelled as an oracle `Env`: `read i` is the
outcome of the i-th `read_namespaced_deployment` call of a run, `patch i`
tells whether the i-th `patch_namespaced_deployment` call succeeds, and
`replace i` whether the i-th `replace_namespaced_deployment` call succeeds.
Each operation returns its outcome (`Except Err`), the updated object
state, and a trace of the API calls, `time.sleep` calls and the hard-mode
log line it performs.  The source retry loops count `tries` up from 0 and
give up on a failure observed with `tries >= 60`; the embedding counts the
remaining allowed failures down (`fuel`, starting at 60), which is the same
loop unrolled.
-/

namespace Kube

/-- Condition type the workflow watches for (source constant `KUBE_ERROR_TYPE`). -/
def KUBE_ERROR_TYPE : String := "ReplicaFailure"

/-- Source constant `KUBE_AVAILABLE_TYPE`. -/
def KUBE_AVAILABLE_TYPE : String := "Available"

/-- Source constant `KUBE_PROGRESSING_TYPE`. -/
def KUBE_PROGRESSING_TYPE : String := "Progressing"

/-- One match expression of a `V1NodeSelectorTerm` (a dict in the source,
src/kube.py lines 72-74). -/
structure MatchExpression where
  key : String
  operator : String
  values : List String
deriving DecidableEq, Repr

/-- Model of `V1NodeSelectorTerm`. -/
structure NodeSelectorTerm where
  match_expressions : List MatchExpression
deriving DecidableEq, Repr

/-- Model of `V1PreferredSchedulingTerm`. -/
structure PreferredSchedulingTerm where
  preference : NodeSelectorTerm
  weight : Int
deriving DecidableEq, Repr

/-- Model of `V1NodeAffinity`. -/
structure NodeAffinity where
  preferred_during_scheduling_ignored_during_execution : List PreferredSchedulingTerm
deriving DecidableEq, Repr

/-- Model of `V1Affinity`. -/
structure Affinity where
  node_affinity : NodeAffinity
deriving DecidableEq, Repr

/-- Affinity object built at the top of `_update_pod_affinity`
(src/kube.py lines 69-83). -/
def buildAffinity (values : List String) : Affinity :=
  let terms : NodeSelectorTerm :=
    { match_expressions :=
        [{ key := "kubernetes.io/hostname", operator := "In", values := values }] }
  let na : NodeAffinity :=
    { preferred_during_scheduling_ignored_during_execution :=
        [{ preference := terms, weight := 1 }] }
  { node_affinity := na }

/-- Fields of the deployment object the source reads or writes:
`spec.replicas`, `metadata.generation`, `status.conditions` (modelled as the
list of condition `type` strings, `none` when the conditions field is
absent), and `spec.template.spec.affinity`. -/
structure Deployment where
  replicas : Int
  generation : Int
  conditions : Option (List String)
  affinity : Option Affinity
deriving DecidableEq, Repr

/-- Outcome of one `read_namespaced_deployment` call: the object, or an
`ApiException` carrying its `reason` string. -/
inductive ReadResult where
  | ok (d : Deployment)
  | err (reason : String)
deriving DecidableEq, Repr

/-- Oracle for the cluster API, indexed by per-kind call counters. -/
structure Env where
  read : Nat → ReadResult
  patch : Nat → Bool
  replace : Nat → Bool

/-- Modelled from the spec: the exception classes of `src/exceptions/kube`
(`KubernetesException`, `KubernetesDeploymentNotFoundException`) are not
under `src/`; spec section 7 describes three distinct error kinds, of which
only the retry-budget error (`ReallocationError`, the source name
`KubernetesException`) is caught at the workflow boundary (src/kube.py
line 136).  `typeError` is the Python `TypeError` raised when
`_get_deployment_status` iterates a `None` conditions field. -/
inductive Err where
  | notFound
  | apiError (reason : String)
  | kubernetesException
  | typeError
deriving DecidableEq, Repr

/-- Observable events of a run: the API calls (with the submitted replica
target, or the submitted replace body), the `time.sleep` calls, and the
hard-mode log line of src/kube.py line 116 marking entry into the
hard-mode branch. -/
inductive Ev where
  | readCall
  | patchCall (target : Int)
  | replaceCall (body : Deployment)
  | sleep (secs : Nat)
  | hardMode
deriving DecidableEq, Repr

/-- Mutable attributes of a `KubeOperation` instance (src/kube.py lines
21-30) together with the per-kind API call counters indexing the oracle. -/
@[ext] structure St where
  deploy_name : String
  ns : String
  num_replicas_before : Int
  current_version : Int
  resource : Deployment
  reads : Nat
  patches : Nat
  replaces : Nat
deriving DecidableEq, Repr

/-- Dictionary returned by `reallocate_pod` (lines 135 and 137). -/
structure RunResult where
  deployment_name : String
  status : Bool
deriving DecidableEq, Repr

/-- Sequencing of two steps: exception propagation plus trace accumulation
(the plain statement-after-statement flow of the Python source). -/
def bindStep {α β : Type} (x : Except Err α × St × List Ev)
    (f : α → St → Except Err β × St × List Ev) : Except Err β × St × List Ev :=
  match x with
  | (.error e, st1, tr) => (.error e, st1, tr)
  | (.ok a, st1, tr) =>
      match f a st1 with
      | (r, st2, tr2) => (r, st2, tr ++ tr2)

/-- Step that only records an event (a sleep or a log line). -/
def emit (ev : Ev) (st : St) : Except Err Unit × St × List Ev := (.ok (), st, [ev])

/-- Embedding of `_get_deployment_info` (src/kube.py lines 32-41): one read
call; a Not Found reason becomes the not-found exception, any other
`ApiException` is re-raised. -/
def get_deployment_info (env : Env) (st : St) : Except Err Deployment × St × List Ev :=
  let st1 := { st with reads := st.reads + 1 }
  match env.read st.reads with
  | .ok d => (.ok d, st1, [.readCall])
  | .err reason =>
      if reason = "Not Found" then (.error .notFound, st1, [.readCall])
      else (.error (.apiError reason), st1, [.readCall])

/-- Embedding of `_get_deployment_status` (lines 43-46): refetch, store the
result in `resource`, and project the condition types.  Iterating a `none`
conditions field is the Python `TypeError`.  The source `str(st.type)` is
the identity here because conditions are modelled as their type strings. -/
def get_deployment_status (env : Env) (st : St) :
    Except Err (List String) × St × List Ev :=
  match get_deployment_info env st with
  | (.error e, st1, tr) => (.error e, st1, tr)
  | (.ok d, st1, tr) =>
      let st2 := { st1 with resource := d }
      match d.conditions with
      | none => (.error .typeError, st2, tr)
      | some cs => (.ok cs, st2, tr)

/-- Retry loop of `_set_pod_replica` (lines 49-63): patch, and on failure
either give up (no fuel, the 61st failing attempt) or sleep 1s and retry. -/
def set_replica_loop (env : Env) (target : Int) (fuel : Nat) (st : St) :
    Except Err Unit × St × List Ev :=
  let st1 := { st with patches := st.patches + 1 }
  match env.patch st.patches, fuel with
  | true, _ => (.ok (), st1, [.patchCall target])
  | false, 0 => (.error .kubernetesException, st1, [.patchCall target])
  | false, Nat.succ f =>
      match set_replica_loop env target f st1 with
      | (r, st2, tr) => (r, st2, .patchCall target :: .sleep 1 :: tr)

/-- Embedding of `_set_pod_replica` (lines 48-67): the retry loop, then a
refetch that updates `current_version` and `resource`. -/
def set_pod_replica (env : Env) (target : Int) (st : St) :
    Except Err Unit × St × List Ev :=
  bindStep (set_replica_loop env target 60 st) fun _ st1 =>
  bindStep (get_deployment_info env st1) fun patched st2 =>
    (.ok (), { st2 with current_version := patched.generation, resource := patched }, [])

/-- Retry loop of `_update_pod_affinity` (lines 85-104): each iteration
writes the affinity into the cached resource and submits a full replace of
it; on a failure with budget left it sleeps 1s, refetches the snapshot and
retries; on the 61st failure it restores the replica count recorded at
construction and then raises. -/
def update_affinity_loop (env : Env) (aff : Affinity) (fuel : Nat) (st : St) :
    Except Err Unit × St × List Ev :=
  let res := { st.resource with affinity := some aff }
  let st1 := { st with resource := res, replaces := st.replaces + 1 }
  match env.replace st.replaces, fuel with
  | true, _ => (.ok (), st1, [.replaceCall res])
  | false, 0 =>
      (match set_pod_replica env st1.num_replicas_before st1 with
       | (.error e, st2, tr) => (.error e, st2, .replaceCall res :: tr)
       | (.ok _, st2, tr) => (.error .kubernetesException, st2, .replaceCall res :: tr))
  | false, Nat.succ f =>
      match get_deployment_info env st1 with
      | (.error e, st2, tr2) => (.error e, st2, .replaceCall res :: .sleep 1 :: tr2)
      | (.ok updated, st2, tr2) =>
          let st3 := { st2 with current_version := updated.generation, resource := updated }
          match update_affinity_loop env aff f st3 with
          | (r, st4, tr3) => (r, st4, .replaceCall res :: .sleep 1 :: (tr2 ++ tr3))

/-- Embedding of `_update_pod_affinity` (lines 69-106): build the affinity
object, run the replace retry loop, then refetch into `resource`. -/
def update_pod_affinity (env : Env) (values : List String) (st : St) :
    Except Err Unit × St × List Ev :=
  bindStep (update_affinity_loop env (buildAffinity values) 60 st) fun _ st1 =>
  bindStep (get_deployment_info env st1) fun d st2 =>
    (.ok (), { st2 with resource := d }, [])

/-- Convergence poll of `reallocate_pod` (lines 125-133): while the error
condition is present, sleep 1s and refetch; the source raises on reaching
the check with `tries >= 60`, i.e. after 60 sleep-and-refetch polls. -/
def converge_loop (env : Env) (fuel : Nat) (status_list : List String) (st : St) :
    Except Err Unit × St × List Ev :=
  if KUBE_ERROR_TYPE ∈ status_list then
    match fuel with
    | 0 => (.error .kubernetesException, st, [])
    | Nat.succ f =>
        match get_deployment_status env st with
        | (.error e, st1, tr) => (.error e, st1, .sleep 1 :: tr)
        | (.ok sl, st1, tr) =>
            match converge_loop env f sl st1 with
            | (r, st2, tr2) => (r, st2, .sleep 1 :: (tr ++ tr2))
  else (.ok (), st, [])

/-- Hard-mode branch of `reallocate_pod` (lines 115-121): the hard-mode log
line, replicas to zero, a 1-second wait, replicas back to the recorded
original value. -/
def hard_mode_cycle (env : Env) (st : St) : Except Err Unit × St × List Ev :=
  bindStep (emit .hardMode st) fun _ stA =>
  bindStep (set_pod_replica env 0 stA) fun _ stB =>
  bindStep (emit (.sleep 1) stB) fun _ stC =>
  set_pod_replica env stC.num_replicas_before stC

/-- Body of the `try` block of `reallocate_pod` (lines 109-135): soft
affinity attempt, 3-second settle delay, status check gating the hard-mode
branch, then the convergence poll. -/
def reallocate_body (env : Env) (values : List String) (st : St) :
    Except Err Unit × St × List Ev :=
  bindStep (update_pod_affinity env values st) fun _ st1 =>
  bindStep (emit (.sleep 3) st1) fun _ st2 =>
  bindStep (get_deployment_status env st2) fun sl1 st3 =>
  bindStep (if KUBE_ERROR_TYPE ∈ sl1 then hard_mode_cycle env st3
            else (.ok (), st3, [])) fun _ st4 =>
  bindStep (get_deployment_status env st4) fun sl2 st5 =>
  converge_loop env 60 sl2 st5

/-- Embedding of `reallocate_pod` (lines 108-137): the body wrapped in the
`except KubernetesException` handler, which alone converts to a
status-false result; every other exception propagates to the caller. -/
def reallocate_pod (env : Env) (values : List String) (st : St) :
    Except Err RunResult × St × List Ev :=
  match reallocate_body env values st with
  | (.ok _, st1, tr) => (.ok ⟨st1.deploy_name, true⟩, st1, tr)
  | (.error .kubernetesException, st1, tr) => (.ok ⟨st1.deploy_name, false⟩, st1, tr)
  | (.error e, st1, tr) => (.error e, st1, tr)

/-- Embedding of `__init__` (lines 18-30): fetch the deployment (read call
0) and record `num_replicas_before` and `current_version`.  Client
configuration (line 19) is an external collaborator and not modelled. -/
def init_operation (env : Env) (deploy_name ns : String) : Except Err St × List Ev :=
  match env.read 0 with
  | .ok d =>
      (.ok { deploy_name := deploy_name, ns := ns,
             num_replicas_before := d.replicas,
             current_version := d.generation,
             resource := d, reads := 1, patches := 0, replaces := 0 }, [.readCall])
  | .err reason =>
      if reason = "Not Found" then (.error .notFound, [.readCall])
      else (.error (.apiError reason), [.readCall])

/-- Recognizer for replica-patch events. -/
@[simp] def isPatch : Ev → Bool
  | .patchCall _ => true
  | _ => false

/-- Recognizer for replace events. -/
@[simp] def isReplace : Ev → Bool
  | .replaceCall _ => true
  | _ => false

/-- Recognizer for read events. -/
@[simp] def isRead : Ev → Bool
  | .readCall => true
  | _ => false

/-- Recognizer for 1-second sleep events. -/
@[simp] def isSleep1 : Ev → Bool
  | .sleep 1 => true
  | _ => false

/-- Number of replica-patch API calls in a trace. -/
def countPatches (tr : List Ev) : Nat := tr.countP isPatch

/-- Number of replace API calls in a trace. -/
def countReplaces (tr : List Ev) : Nat := tr.countP isReplace

/-- Number of read API calls in a trace. -/
def countReads (tr : List Ev) : Nat := tr.countP isRead

/-- Number of 1-second sleeps in a trace. -/
def countSleep1 (tr : List Ev) : Nat := tr.countP isSleep1

/-- Trace of a replica patch loop whose call fails `n` times before it
stops retrying (by success or by giving up). -/
def attemptTrace (target : Int) : Nat → List Ev
  | 0 => [.patchCall target]
  | Nat.succ n => .patchCall target :: .sleep 1 :: attemptTrace target n

/-- Gate-and-convergence tail of the workflow body, shared by the
decomposition lemmas below. -/
def postGate (env : Env) (sl1 : List String) (st3 : St) :
    Except Err Unit × St × List Ev :=
  bindStep (if KUBE_ERROR_TYPE ∈ sl1 then hard_mode_cycle env st3
            else (.ok (), st3, [])) fun _ st4 =>
  bindStep (get_deployment_status env st4) fun sl2 st5 =>
  converge_loop env 60 sl2 st5

/-! Concrete fixtures used by witnesses and counterexamples: a deployment
named "api" with 3 replicas, in the state reached right after construction
(read call 0 already consumed). -/

/-- Deployment object with a healthy conditions list. -/
def dOk : Deployment :=
  { replicas := 3, generation := 1, conditions := some [KUBE_AVAILABLE_TYPE],
    affinity := none }

/-- Deployment object carrying the error condition. -/
def dErr : Deployment :=
  { replicas := 3, generation := 1, conditions := some [KUBE_ERROR_TYPE],
    affinity := none }

/-- Deployment object whose conditions field is absent. -/
def dNoCond : Deployment :=
  { replicas := 3, generation := 1, conditions := none, affinity := none }

/-- Instance state right after a successful construction against `dOk`. -/
def st0 : St :=
  { deploy_name := "api", ns := "default", num_replicas_before := 3,
    current_version := 1, resource := dOk, reads := 1, patches := 0, replaces := 0 }

/-- Oracle: every call succeeds, status always healthy. -/
def envHealthy : Env :=
  { read := fun _ => .ok dOk, patch := fun _ => true, replace := fun _ => true }

/-- Oracle: every call succeeds but the error condition never clears. -/
def envStuck : Env :=
  { read := fun _ => .ok dErr, patch := fun _ => true, replace := fun _ => true }

/-- Oracle: every replica patch call fails. -/
def envPatchDown : Env :=
  { read := fun _ => .ok dOk, patch := fun _ => false, replace := fun _ => true }

/-- Oracle: the replica patch first succeeds on its third call. -/
def envPatchThird : Env :=
  { read := fun _ => .ok dOk, patch := fun i => i == 2, replace := fun _ => true }

/-- Oracle: every replace call fails, reads and patches succeed. -/
def envReplaceDown : Env :=
  { read := fun _ => .ok dOk, patch := fun _ => true, replace := fun _ => false }

/-- Oracle: the replace first succeeds on its second call. -/
def envReplaceSecond : Env :=
  { read := fun _ => .ok dOk, patch := fun _ => true, replace := fun i => i == 1 }

/-- Oracle: the status read after the soft attempt (read call 2) raises an
`ApiException` with a non-Not-Found reason. -/
def envReadBoom : Env :=
  { read := fun i => if i = 2 then .err ("Boom") else .ok dOk,
    patch := fun _ => true, replace := fun _ => true }

/-- Oracle: healthy through the status check after the soft attempt, but
the error condition appears on every later read and never clears. -/
def envLateErr : Env :=
  { read := fun i => if i ≤ 2 then .ok dOk else .ok dErr,
    patch := fun _ => true, replace := fun _ => true }

/-- Oracle: the status read after the soft attempt returns a deployment
with no conditions field. -/
def envNoCond : Env :=
  { read := fun i => if i = 2 then .ok dNoCond else .ok dOk,
    patch := fun _ => true, replace := fun _ => true }

/-- Oracle: the first replace fails and the snapshot refetch inside the
retry loop (read call 1) raises an `ApiException`. -/
def envRefetchBoom : Env :=
  { read := fun i => if i = 1 then .err ("Boom") else .ok dOk,
    patch := fun _ => true, replace := fun _ => false }

/-! Intermediate instance states reached by the fixture runs (after the
soft attempt, after each status fetch, after the hard-mode cycle). -/

/-- State of the `envStuck` run after the soft attempt. -/
def stuckA : St := { st0 with resource := dErr, replaces := 1, reads := 2 }

/-- State of the `envStuck` run after the settle-delay status fetch. -/
def stuckB : St := { stuckA with reads := 3, resource := dErr }

/-- State of the `envStuck` run after the hard-mode cycle. -/
def stuckC : St :=
  { stuckB with
    patches := 2,
    reads := 5,
    current_version := dErr.generation,
    resource := dErr }

/-- State of the `envStuck` run after the convergence-entry fetch. -/
def stuckD : St := { stuckC with reads := 6, resource := dErr }

/-- State of the `envLateErr` run after the soft attempt. -/
def lateA : St := { st0 with resource := dOk, replaces := 1, reads := 2 }

/-- State of the `envLateErr` run after the settle-delay status fetch. -/
def lateB : St := { lateA with reads := 3, resource := dOk }

/-- State of the `envLateErr` run after the convergence-entry fetch. -/
def lateC : St := { lateB with reads := 4, resource := dErr }

/-- State of the `envHealthy` run after the soft attempt. -/
def healthyA : St := { st0 with resource := dOk, replaces := 1, reads := 2 }

/-- State of the `envHealthy` run after the settle-delay status fetch. -/
def healthyB : St := { healthyA with reads := 3, resource := dOk }

/-- State of the `envHealthy` run after the convergence-entry fetch. -/
def healthyC : St := { healthyB with reads := 4, resource := dOk }

/-! Helper lemmas about the sequencing combinator. -/

lemma bindStep_err {α β : Type} (e : Err) (st1 : St) (tr : List Ev)
    (f : α → St → Except Err β × St × List Ev) :
    bindStep (.error e, st1, tr) f = (.error e, st1, tr) := rfl

lemma bindStep_ok {α β : Type} (a : α) (st1 : St) (tr : List Ev)
    (f : α → St → Except Err β × St × List Ev) :
    bindStep (.ok a, st1, tr) f =
      ((f a st1).1, (f a st1).2.1, tr ++ (f a st1).2.2) := by
  rcases h : f a st1 with ⟨r, st2, tr2⟩
  simp [bindStep, h]

/-- Elements of the trace of a sequenced step come from one of the two
steps, the second being run on the first one's final state. -/
lemma forall_mem_bindStep {α β : Type} {P : Ev → Prop}
    {x : Except Err α × St × List Ev} {f : α → St → Except Err β × St × List Ev}
    (hx : ∀ e ∈ x.2.2, P e)
    (hf : ∀ a, ∀ e ∈ (f a x.2.1).2.2, P e) :
    ∀ e ∈ (bindStep x f).2.2, P e := by
  rcases x with ⟨r, st1, tr⟩
  cases r with
  | error e => exact hx
  | ok a =>
      rcases h : f a st1 with ⟨r2, st2, tr2⟩
      intro e he
      simp only [bindStep, h] at he
      rcases List.mem_append.mp he with h1 | h2
      · exact hx e h1
      · refine hf a e ?_
        simpa [h] using h2

/-! Evaluation lemmas for the accessor. -/

lemma get_deployment_info_ok {env : Env} {st : St} {d : Deployment}
    (h : env.read st.reads = .ok d) :
    get_deployment_info env st =
      (.ok d, { st with reads := st.reads + 1 }, [.readCall]) := by
  simp [get_deployment_info, h]

lemma get_deployment_info_err {env : Env} {st : St} {reason : String}
    (h : env.read st.reads = .err reason) (hne : reason ≠ "Not Found") :
    get_deployment_info env st =
      (.error (.apiError reason), { st with reads := st.reads + 1 }, [.readCall]) := by
  simp [get_deployment_info, h, hne]

lemma get_deployment_status_ok {env : Env} {st : St} {d : Deployment} {cs : List String}
    (h : env.read st.reads = .ok d) (hc : d.conditions = some cs) :
    get_deployment_status env st =
      (.ok cs, { st with reads := st.reads + 1, resource := d }, [.readCall]) := by
  simp [get_deployment_status, get_deployment_info_ok h, hc]

lemma get_deployment_status_none {env : Env} {st : St} {d : Deployment}
    (h : env.read st.reads = .ok d) (hc : d.conditions = none) :
    get_deployment_status env st =
      (.error .typeError, { st with reads := st.reads + 1, resource := d }, [.readCall]) := by
  simp [get_deployment_status, get_deployment_info_ok h, hc]

/-! Traces of the replica retry loop. -/

lemma countPatches_attemptTrace (target : Int) (n : Nat) :
    countPatches (attemptTrace target n) = n + 1 := by
  induction n with
  | zero => simp [attemptTrace, countPatches]
  | succ m ih => simp [attemptTrace, countPatches, List.countP_cons] at ih ⊢; omega

lemma countSleep1_attemptTrace (target : Int) (n : Nat) :
    countSleep1 (attemptTrace target n) = n := by
  induction n with
  | zero => simp [attemptTrace, countSleep1]
  | succ m ih => simp [attemptTrace, countSleep1, List.countP_cons] at ih ⊢; omega

lemma mem_attemptTrace (target : Int) (n : Nat) :
    ∀ e ∈ attemptTrace target n, e = Ev.patchCall target ∨ e = Ev.sleep 1 := by
  induction n with
  | zero => simp [attemptTrace]
  | succ m ih =>
      intro e he
      simp only [attemptTrace, List.mem_cons] at he
      rcases he with h | h | h
      · exact Or.inl h
      · exact Or.inr h
      · exact ih e h

/-- Retry loop of the replica setter when every patch call fails: the
exception is raised after `fuel + 1` attempts and `fuel` sleeps. -/
lemma set_replica_loop_fail {env : Env} (target : Int)
    (hfail : ∀ i, env.patch i = false) :
    ∀ fuel st, set_replica_loop env target fuel st =
      (.error .kubernetesException,
       { st with patches := st.patches + fuel + 1 }, attemptTrace target fuel) := by
  intro fuel
  induction fuel with
  | zero => intro st; simp [set_replica_loop, hfail, attemptTrace]
  | succ f ih =>
      intro st
      simp only [set_replica_loop, hfail]
      rw [ih]
      refine Prod.ext rfl (Prod.ext ?_ ?_)
      · ext <;> simp <;> omega
      · simp [attemptTrace]

/-- Retry loop of the replica setter when the patch call first succeeds on
attempt `j + 1`: exactly `j + 1` attempts are performed. -/
lemma set_replica_loop_succ {env : Env} (target : Int) :
    ∀ (j fuel : Nat) (st : St), (∀ i, i < j → env.patch (st.patches + i) = false) →
      env.patch (st.patches + j) = true → j ≤ fuel →
      set_replica_loop env target fuel st =
        (.ok (), { st with patches := st.patches + j + 1 }, attemptTrace target j) := by
  intro j
  induction j with
  | zero =>
      intro fuel st _ hsucc _
      have h0 : env.patch st.patches = true := by simpa using hsucc
      cases fuel <;> simp [set_replica_loop, h0, attemptTrace]
  | succ m ih =>
      intro fuel st hfail hsucc hle
      have h0 : env.patch st.patches = false := by simpa using hfail 0 (Nat.succ_pos m)
      cases fuel with
      | zero => omega
      | succ f =>
          simp only [set_replica_loop, h0]
          rw [ih f { st with patches := st.patches + 1 }
            (by intro i hi
                have := hfail (i + 1) (by omega)
                simpa [Nat.add_assoc, Nat.add_comm 1 i] using this)
            (by have := hsucc
                simpa [Nat.add_assoc, Nat.add_comm 1 m] using this)
            (by omega)]
          refine Prod.ext rfl (Prod.ext ?_ ?_)
          · ext <;> simp <;> omega
          · simp [attemptTrace]

/-- Replica setter when every patch call fails: the wrapped exception after
61 attempts and 60 sleeps, with no final refetch. -/
lemma set_pod_replica_fail {env : Env} (target : Int) (st : St)
    (hfail : ∀ i, env.patch i = false) :
    set_pod_replica env target st =
      (.error .kubernetesException,
       { st with patches := st.patches + 61 }, attemptTrace target 60) := by
  unfold set_pod_replica
  rw [set_replica_loop_fail target hfail 60 st, bindStep_err]

/-- Replica setter when the patch first succeeds on attempt `j + 1` and the
follow-up read succeeds. -/
lemma set_pod_replica_succ (env : Env) (target : Int) (st : St) (j : Nat) (d : Deployment)
    (hfail : ∀ i, i < j → env.patch (st.patches + i) = false)
    (hsucc : env.patch (st.patches + j) = true) (hle : j ≤ 60)
    (hread : env.read st.reads = .ok d) :
    set_pod_replica env target st =
      (.ok (), { st with patches := st.patches + j + 1, reads := st.reads + 1,
                         current_version := d.generation, resource := d },
       attemptTrace target j ++ [.readCall]) := by
  unfold set_pod_replica
  rw [set_replica_loop_succ target j 60 st hfail hsucc hle, bindStep_ok]
  have hr : env.read (St.reads { st with patches := st.patches + j + 1 }) = .ok d := hread
  rw [get_deployment_info_ok hr, bindStep_ok]
  simp

/-- Replica setter when the patch first succeeds immediately and the
follow-up read succeeds (the common case in the workflow paths). -/
lemma set_pod_replica_first (env : Env) (target : Int) (st : St) (d : Deployment)
    (hsucc : env.patch st.patches = true)
    (hread : env.read st.reads = .ok d) :
    set_pod_replica env target st =
      (.ok (), { st with patches := st.patches + 1, reads := st.reads + 1,
                         current_version := d.generation, resource := d },
       [.patchCall target, .readCall]) := by
  have := set_pod_replica_succ env target st 0 d
    (by omega) (by simpa using hsucc) (by omega) hread
  simpa [attemptTrace] using this

/-- Affinity retry loop when every replace call fails, every read succeeds
and the rollback patch succeeds at once: the wrapped exception after
`fuel + 1` replace attempts and `fuel` sleeps, with the replica count
restored to the recorded original value (one patch call, present in the
trace) before the exception surfaces. -/
lemma update_affinity_loop_fail {env : Env} (aff : Affinity)
    (hrep : ∀ i, env.replace i = false)
    (hread : ∀ i, ∃ d, env.read i = .ok d)
    (hpatch : ∀ i, env.patch i = true) :
    ∀ fuel st, ∃ st9 tr,
      update_affinity_loop env aff fuel st = (.error .kubernetesException, st9, tr) ∧
      countReplaces tr = fuel + 1 ∧ countSleep1 tr = fuel ∧ countPatches tr = 1 ∧
      Ev.patchCall st.num_replicas_before ∈ tr ∧
      st9.num_replicas_before = st.num_replicas_before ∧
      st9.deploy_name = st.deploy_name := by
  intro fuel
  induction fuel with
  | zero =>
      intro st
      obtain ⟨d, hd⟩ := hread st.reads
      have hs := set_pod_replica_first env st.num_replicas_before
        { st with
          resource := { st.resource with affinity := some aff },
          replaces := st.replaces + 1 } d (hpatch _) hd
      refine ⟨{ st with
          resource := d,
          current_version := d.generation,
          reads := st.reads + 1,
          patches := st.patches + 1,
          replaces := st.replaces + 1 },
        [.replaceCall { st.resource with affinity := some aff },
         .patchCall st.num_replicas_before, .readCall], ?_, ?_, ?_, ?_, ?_, ?_, ?_⟩
      · simp only [update_affinity_loop, hrep]
        rw [hs]
      · simp [countReplaces, List.countP_cons]
      · simp [countSleep1, List.countP_cons]
      · simp [countPatches, List.countP_cons]
      · simp
      · simp
      · simp
  | succ f ih =>
      intro st
      obtain ⟨d, hd⟩ := hread st.reads
      obtain ⟨st9, tr3, hloop, hc1, hc2, hc3, hmem, hn, hdn⟩ :=
        ih { st with
             resource := d,
             current_version := d.generation,
             replaces := st.replaces + 1,
             reads := st.reads + 1 }
      refine ⟨st9, .replaceCall { st.resource with affinity := some aff } ::
        .sleep 1 :: ([.readCall] ++ tr3), ?_, ?_, ?_, ?_, ?_, ?_, ?_⟩
      · simp only [update_affinity_loop, hrep, get_deployment_info, hd]
        rw [hloop]
      · simp only [countReplaces] at hc1
        simp only [countReplaces, List.countP_cons, List.countP_append, isReplace,
          List.countP_nil, Bool.false_eq_true, eq_self_iff_true, if_true, if_false]
        omega
      · simp only [countSleep1] at hc2
        simp only [countSleep1, List.countP_cons, List.countP_append, isSleep1,
          List.countP_nil, Bool.false_eq_true, eq_self_iff_true, if_true, if_false]
        omega
      · simp only [countPatches] at hc3
        simp only [countPatches, List.countP_cons, List.countP_append, isPatch,
          List.countP_nil, Bool.false_eq_true, eq_self_iff_true, if_true, if_false]
        omega
      · simp only [List.mem_cons, List.mem_append]
        right; right; right
        simpa using hmem
      · simpa using hn
      · simpa using hdn

/-- Affinity retry loop when the replace call first succeeds on attempt
`j + 1` and every read succeeds: exactly `j + 1` replace attempts, no
replica patch. -/
lemma update_affinity_loop_succ {env : Env} (aff : Affinity)
    (hread : ∀ i, ∃ d, env.read i = .ok d) :
    ∀ (j fuel : Nat) (st : St), (∀ i, i < j → env.replace (st.replaces + i) = false) →
      env.replace (st.replaces + j) = true → j ≤ fuel →
      ∃ st9 tr, update_affinity_loop env aff fuel st = (.ok (), st9, tr) ∧
        countReplaces tr = j + 1 ∧ countPatches tr = 0 ∧ countSleep1 tr = j ∧
        st9.num_replicas_before = st.num_replicas_before ∧
        st9.deploy_name = st.deploy_name := by
  intro j
  induction j with
  | zero =>
      intro fuel st _ hsucc _
      have h0 : env.replace st.replaces = true := by simpa using hsucc
      refine ⟨{ st with
          resource := { st.resource with affinity := some aff },
          replaces := st.replaces + 1 },
        [.replaceCall { st.resource with affinity := some aff }], ?_, ?_, ?_, ?_, ?_, ?_⟩
      · cases fuel <;> simp [update_affinity_loop, h0]
      · simp [countReplaces, List.countP_cons]
      · simp [countPatches, List.countP_cons]
      · simp [countSleep1, List.countP_cons]
      · simp
      · simp
  | succ m ih =>
      intro fuel st hfail hsucc hle
      have h0 : env.replace st.replaces = false := by simpa using hfail 0 (Nat.succ_pos m)
      cases fuel with
      | zero => omega
      | succ f =>
          obtain ⟨d, hd⟩ := hread st.reads
          obtain ⟨st9, tr3, hloop, hc1, hc2, hc3, hn, hdn⟩ :=
            ih f { st with
                   resource := d,
                   current_version := d.generation,
                   replaces := st.replaces + 1,
                   reads := st.reads + 1 }
              (by intro i hi
                  have := hfail (i + 1) (by omega)
                  simpa [Nat.add_assoc, Nat.add_comm 1 i] using this)
              (by have := hsucc
                  simpa [Nat.add_assoc, Nat.add_comm 1 m] using this)
              (by omega)
          refine ⟨st9, .replaceCall { st.resource with affinity := some aff } ::
            .sleep 1 :: ([.readCall] ++ tr3), ?_, ?_, ?_, ?_, ?_, ?_⟩
          · simp only [update_affinity_loop, h0, get_deployment_info, hd]
            rw [hloop]
          · simp only [countReplaces] at hc1
            simp only [countReplaces, List.countP_cons, List.countP_append, isReplace,
              List.countP_nil, Bool.false_eq_true, eq_self_iff_true, if_true, if_false]
            omega
          · simp only [countPatches] at hc2
            simp only [countPatches, List.countP_cons, List.countP_append, isPatch,
              List.countP_nil, Bool.false_eq_true, eq_self_iff_true, if_true, if_false]
            omega
          · simp only [countSleep1] at hc3
            simp only [countSleep1, List.countP_cons, List.countP_append, isSleep1,
              List.countP_nil, Bool.false_eq_true, eq_self_iff_true, if_true, if_false]
            omega
          · simpa using hn
          · simpa using hdn

/-- Affinity mutator under exhausted replace budget (every replace call
fails, reads and the rollback patch succeed): the wrapped exception after
61 replace attempts, with the restore patch call in the trace. -/
lemma update_pod_affinity_fail (env : Env) (values : List String) (st : St)
    (hrep : ∀ i, env.replace i = false)
    (hread : ∀ i, ∃ d, env.read i = .ok d)
    (hpatch : ∀ i, env.patch i = true) :
    ∃ st9 tr, update_pod_affinity env values st = (.error .kubernetesException, st9, tr) ∧
      countReplaces tr = 61 ∧ countSleep1 tr = 60 ∧ countPatches tr = 1 ∧
      Ev.patchCall st.num_replicas_before ∈ tr ∧
      st9.num_replicas_before = st.num_replicas_before ∧
      st9.deploy_name = st.deploy_name := by
  obtain ⟨st9, tr, heq, hc1, hc2, hc3, hmem, hn, hdn⟩ :=
    update_affinity_loop_fail (buildAffinity values) hrep hread hpatch 60 st
  refine ⟨st9, tr, ?_, hc1, hc2, hc3, hmem, hn, hdn⟩
  unfold update_pod_affinity
  rw [heq, bindStep_err]

/-- Affinity mutator when the replace first succeeds on attempt `j + 1` and
every read succeeds: an ok result after exactly `j + 1` replace attempts
and no replica patch. -/
lemma update_pod_affinity_succ (env : Env) (values : List String) (st : St) (j : Nat)
    (hread : ∀ i, ∃ d, env.read i = .ok d)
    (hfail : ∀ i, i < j → env.replace (st.replaces + i) = false)
    (hsucc : env.replace (st.replaces + j) = true) (hle : j ≤ 60) :
    ∃ st9 tr, update_pod_affinity env values st = (.ok (), st9, tr) ∧
      countReplaces tr = j + 1 ∧ countPatches tr = 0 ∧ countSleep1 tr = j ∧
      st9.num_replicas_before = st.num_replicas_before ∧
      st9.deploy_name = st.deploy_name := by
  obtain ⟨st8, tr, heq, hc1, hc2, hc3, hn, hdn⟩ :=
    update_affinity_loop_succ (buildAffinity values) hread j 60 st hfail hsucc hle
  obtain ⟨d, hd⟩ := hread st8.reads
  refine ⟨{ st8 with reads := st8.reads + 1, resource := d },
    tr ++ ([.readCall] ++ []), ?_, ?_, ?_, ?_, ?_, ?_⟩
  · unfold update_pod_affinity
    rw [heq, bindStep_ok, get_deployment_info_ok hd, bindStep_ok]
  · simp only [countReplaces] at hc1
    simp only [countReplaces, List.countP_cons, List.countP_append, isReplace,
      List.countP_nil, Bool.false_eq_true, eq_self_iff_true, if_true, if_false]
    omega
  · simp only [countPatches] at hc2
    simp only [countPatches, List.countP_cons, List.countP_append, isPatch,
      List.countP_nil, Bool.false_eq_true, eq_self_iff_true, if_true, if_false]
    omega
  · simp only [countSleep1] at hc3
    simp only [countSleep1, List.countP_cons, List.countP_append, isSleep1,
      List.countP_nil, Bool.false_eq_true, eq_self_iff_true, if_true, if_false]
    omega
  · simpa using hn
  · simpa using hdn

/-! State preservation: no operation ever reassigns the identity fields or
the replica count recorded at construction. -/

/-- Fields of the instance state that no operation reassigns. -/
def presSt (st1 st0 : St) : Prop :=
  st1.deploy_name = st0.deploy_name ∧ st1.ns = st0.ns ∧
  st1.num_replicas_before = st0.num_replicas_before

lemma presSt_refl (st : St) : presSt st st := ⟨rfl, rfl, rfl⟩

lemma presSt_trans {a b c : St} (h1 : presSt a b) (h2 : presSt b c) : presSt a c :=
  ⟨h1.1.trans h2.1, h1.2.1.trans h2.2.1, h1.2.2.trans h2.2.2⟩

lemma pres_bindStep {α β : Type} {st0 : St} {x : Except Err α × St × List Ev}
    {f : α → St → Except Err β × St × List Ev}
    (hx : presSt x.2.1 st0)
    (hf : ∀ a, presSt ((f a x.2.1).2.1) x.2.1) :
    presSt ((bindStep x f).2.1) st0 := by
  rcases x with ⟨r, st1, tr⟩
  cases r with
  | error e => exact hx
  | ok a =>
      rcases h : f a st1 with ⟨r2, st2, tr2⟩
      have := hf a
      rw [h] at this
      simp only [bindStep, h]
      exact presSt_trans this hx

lemma pres_get_deployment_info (env : Env) (st : St) :
    presSt (get_deployment_info env st).2.1 st := by
  unfold get_deployment_info
  rcases h : env.read st.reads with d | reason
  · simp [presSt, h]
  · simp only [h]
    split <;> simp [presSt]

lemma pres_get_deployment_status (env : Env) (st : St) :
    presSt (get_deployment_status env st).2.1 st := by
  have h := pres_get_deployment_info env st
  unfold get_deployment_status
  rcases hg : get_deployment_info env st with ⟨r, st1, tr⟩
  rw [hg] at h
  rcases r with e | d
  · exact h
  · rcases hc : d.conditions with _ | cs
    · simp only [hc]
      simpa [presSt] using h
    · simp only [hc]
      simpa [presSt] using h

lemma pres_set_replica_loop (env : Env) (target : Int) :
    ∀ fuel st, presSt (set_replica_loop env target fuel st).2.1 st := by
  intro fuel
  induction fuel with
  | zero =>
      intro st
      unfold set_replica_loop
      cases env.patch st.patches <;> simp [presSt]
  | succ f ih =>
      intro st
      unfold set_replica_loop
      cases h : env.patch st.patches
      · have h2 := ih { st with patches := st.patches + 1 }
        rcases hr : set_replica_loop env target f { st with patches := st.patches + 1 }
          with ⟨r, st2, tr⟩
        rw [hr] at h2
        simp only [hr]
        simp only [presSt] at h2 ⊢
        simpa using h2
      · simp [presSt]

lemma pres_set_pod_replica (env : Env) (target : Int) (st : St) :
    presSt (set_pod_replica env target st).2.1 st := by
  unfold set_pod_replica
  refine pres_bindStep (pres_set_replica_loop env target 60 st) ?_
  intro a
  refine pres_bindStep (pres_get_deployment_info env _) ?_
  intro d
  simp [presSt]

lemma pres_update_affinity_loop (env : Env) (aff : Affinity) :
    ∀ fuel st, presSt (update_affinity_loop env aff fuel st).2.1 st := by
  intro fuel
  induction fuel with
  | zero =>
      intro st
      unfold update_affinity_loop
      cases h : env.replace st.replaces
      · have h2 := pres_set_pod_replica env
          (St.num_replicas_before { st with
            resource := { st.resource with affinity := some aff },
            replaces := st.replaces + 1 })
          { st with
            resource := { st.resource with affinity := some aff },
            replaces := st.replaces + 1 }
        rcases hr : set_pod_replica env
          (St.num_replicas_before { st with
            resource := { st.resource with affinity := some aff },
            replaces := st.replaces + 1 })
          { st with
            resource := { st.resource with affinity := some aff },
            replaces := st.replaces + 1 } with ⟨r, st2, tr⟩
        rw [hr] at h2
        simp only [hr]
        rcases r with e | u
        · simp only [presSt] at h2 ⊢
          simpa using h2
        · simp only [presSt] at h2 ⊢
          simpa using h2
      · simp [presSt]
  | succ f ih =>
      intro st
      unfold update_affinity_loop
      cases h : env.replace st.replaces
      · have h1 := pres_get_deployment_info env
          { st with
            resource := { st.resource with affinity := some aff },
            replaces := st.replaces + 1 }
        rcases hg : get_deployment_info env
          { st with
            resource := { st.resource with affinity := some aff },
            replaces := st.replaces + 1 } with ⟨r, st2, tr2⟩
        rw [hg] at h1
        simp only [hg]
        rcases r with e | updated
        · simp only [presSt] at h1 ⊢
          simpa using h1
        · have h3 := ih { st2 with
            current_version := updated.generation,
            resource := updated }
          rcases hl : update_affinity_loop env aff f
            { st2 with current_version := updated.generation, resource := updated }
            with ⟨r4, st4, tr4⟩
          rw [hl] at h3
          simp only [hl]
          simp only [presSt] at h1 h3 ⊢
          exact ⟨h3.1.trans h1.1, h3.2.1.trans h1.2.1, h3.2.2.trans h1.2.2⟩
      · simp [presSt]

lemma pres_update_pod_affinity (env : Env) (values : List String) (st : St) :
    presSt (update_pod_affinity env values st).2.1 st := by
  unfold update_pod_affinity
  refine pres_bindStep (pres_update_affinity_loop env (buildAffinity values) 60 st) ?_
  intro a
  refine pres_bindStep (pres_get_deployment_info env _) ?_
  intro d
  simp [presSt]

lemma pres_converge_loop (env : Env) :
    ∀ fuel sl st, presSt (converge_loop env fuel sl st).2.1 st := by
  intro fuel
  induction fuel with
  | zero =>
      intro sl st
      unfold converge_loop
      split <;> simp [presSt]
  | succ f ih =>
      intro sl st
      unfold converge_loop
      split
      · have h1 := pres_get_deployment_status env st
        rcases hg : get_deployment_status env st with ⟨r, st1, tr⟩
        rw [hg] at h1
        rcases r with e | sl2
        · exact h1
        · have h3 := ih sl2 st1
          rcases hl : converge_loop env f sl2 st1 with ⟨r4, st4, tr4⟩
          rw [hl] at h3
          simp only [hl]
          exact presSt_trans h3 h1
      · simp [presSt]

lemma pres_hard_mode_cycle (env : Env) (st : St) :
    presSt (hard_mode_cycle env st).2.1 st := by
  unfold hard_mode_cycle
  refine pres_bindStep (presSt_refl st) ?_
  intro a
  refine pres_bindStep (pres_set_pod_replica env 0 _) ?_
  intro b
  refine pres_bindStep ?_ ?_
  · exact presSt_refl _
  · intro c
    exact pres_set_pod_replica env _ _

lemma pres_reallocate_body (env : Env) (values : List String) (st : St) :
    presSt (reallocate_body env values st).2.1 st := by
  unfold reallocate_body
  refine pres_bindStep (pres_update_pod_affinity env values st) ?_
  intro a
  refine pres_bindStep (presSt_refl _) ?_
  intro b
  refine pres_bindStep (pres_get_deployment_status env _) ?_
  intro sl1
  refine pres_bindStep ?_ ?_
  · split
    · exact pres_hard_mode_cycle env _
    · exact presSt_refl _
  · intro c
    refine pres_bindStep (pres_get_deployment_status env _) ?_
    intro sl2
    exact pres_converge_loop env 60 sl2 _

lemma pres_reallocate_pod (env : Env) (values : List String) (st : St) :
    presSt (reallocate_pod env values st).2.1 st := by
  have h := pres_reallocate_body env values st
  unfold reallocate_pod
  rcases hb : reallocate_body env values st with ⟨r, st1, tr⟩
  rw [hb] at h
  rcases r with e | u
  · rcases e <;> exact h
  · exact h

/-! Classification of the events each operation can emit. -/

lemma trace_get_deployment_info (env : Env) (st : St) :
    (get_deployment_info env st).2.2 = [Ev.readCall] := by
  unfold get_deployment_info
  rcases h : env.read st.reads with d | reason
  · simp [h]
  · simp only [h]
    split <;> rfl

lemma trace_get_deployment_status (env : Env) (st : St) :
    (get_deployment_status env st).2.2 = [Ev.readCall] := by
  have ht := trace_get_deployment_info env st
  unfold get_deployment_status
  rcases hg : get_deployment_info env st with ⟨r, st1, tr⟩
  rw [hg] at ht
  simp only at ht
  rcases r with e | d
  · exact ht
  · rcases hc : d.conditions with _ | cs <;> simp only [hc] <;> exact ht

lemma mem_set_replica_loop (env : Env) (target : Int) :
    ∀ fuel st, ∀ e ∈ (set_replica_loop env target fuel st).2.2,
      e = Ev.patchCall target ∨ e = Ev.sleep 1 := by
  intro fuel
  induction fuel with
  | zero =>
      intro st e
      unfold set_replica_loop
      cases h : env.patch st.patches <;> simp only [h] <;> intro he <;>
        simp only [List.mem_singleton] at he <;> subst he <;> simp
  | succ f ih =>
      intro st e
      unfold set_replica_loop
      cases h : env.patch st.patches
      · simp only [h]
        rcases hr : set_replica_loop env target f { st with patches := st.patches + 1 }
          with ⟨r, st2, tr⟩
        have hm := ih { st with patches := st.patches + 1 }
        rw [hr] at hm
        simp only at hm
        intro he
        rcases List.mem_cons.mp he with h1 | h2
        · exact Or.inl h1
        · rcases List.mem_cons.mp h2 with h3 | h4
          · exact Or.inr h3
          · exact hm e h4
      · simp only [h]
        intro he
        simp only [List.mem_singleton] at he
        subst he
        simp

lemma mem_set_pod_replica (env : Env) (target : Int) (st : St) :
    ∀ e ∈ (set_pod_replica env target st).2.2,
      e = Ev.patchCall target ∨ e = Ev.sleep 1 ∨ e = Ev.readCall := by
  unfold set_pod_replica
  refine forall_mem_bindStep ?_ ?_
  · intro e he
    rcases mem_set_replica_loop env target 60 st e he with h | h
    · exact Or.inl h
    · exact Or.inr (Or.inl h)
  · intro a
    refine forall_mem_bindStep ?_ ?_
    · intro e he
      rw [trace_get_deployment_info] at he
      simp only [List.mem_singleton] at he
      subst he
      simp
    · intro d e he
      simp at he

lemma mem_update_affinity_loop (env : Env) (aff : Affinity) :
    ∀ fuel st, ∀ e ∈ (update_affinity_loop env aff fuel st).2.2,
      (∃ b, e = Ev.replaceCall b ∧ b.affinity = some aff) ∨ e = Ev.sleep 1 ∨
      e = Ev.readCall ∨ e = Ev.patchCall st.num_replicas_before := by
  intro fuel
  induction fuel with
  | zero =>
      intro st e
      unfold update_affinity_loop
      cases h : env.replace st.replaces
      · simp only [h]
        rcases hs : set_pod_replica env st.num_replicas_before
            { st with
              resource := { st.resource with affinity := some aff },
              replaces := st.replaces + 1 } with ⟨r, st2, tr⟩
        have hm := mem_set_pod_replica env st.num_replicas_before
            { st with
              resource := { st.resource with affinity := some aff },
              replaces := st.replaces + 1 }
        rw [hs] at hm
        simp only at hm
        rcases r with e2 | u <;> simp only [hs] <;> intro he <;>
          rcases List.mem_cons.mp he with h1 | h2
        · subst h1; exact Or.inl ⟨_, rfl, rfl⟩
        · rcases hm e h2 with h3 | h3 | h3
          · exact Or.inr (Or.inr (Or.inr h3))
          · exact Or.inr (Or.inl h3)
          · exact Or.inr (Or.inr (Or.inl h3))
        · subst h1; exact Or.inl ⟨_, rfl, rfl⟩
        · rcases hm e h2 with h3 | h3 | h3
          · exact Or.inr (Or.inr (Or.inr h3))
          · exact Or.inr (Or.inl h3)
          · exact Or.inr (Or.inr (Or.inl h3))
      · simp only [h]
        intro he
        simp only [List.mem_singleton] at he
        subst he
        exact Or.inl ⟨_, rfl, rfl⟩
  | succ f ih =>
      intro st e
      unfold update_affinity_loop
      cases h : env.replace st.replaces
      · simp only [h]
        have hp := pres_get_deployment_info env
            { st with
              resource := { st.resource with affinity := some aff },
              replaces := st.replaces + 1 }
        have ht := trace_get_deployment_info env
            { st with
              resource := { st.resource with affinity := some aff },
              replaces := st.replaces + 1 }
        rcases hg : get_deployment_info env
            { st with
              resource := { st.resource with affinity := some aff },
              replaces := st.replaces + 1 } with ⟨r, st2, tr2⟩
        rw [hg] at hp ht
        simp only at hp ht
        subst ht
        rcases r with e2 | updated
        · simp only [hg]
          intro he
          rcases List.mem_cons.mp he with h1 | h2
          · subst h1; exact Or.inl ⟨_, rfl, rfl⟩
          · rcases List.mem_cons.mp h2 with h3 | h4
            · exact Or.inr (Or.inl h3)
            · simp only [List.mem_singleton] at h4
              subst h4
              exact Or.inr (Or.inr (Or.inl rfl))
        · simp only [hg]
          have hm := ih { st2 with
            current_version := updated.generation,
            resource := updated }
          rcases hl : update_affinity_loop env aff f
            { st2 with current_version := updated.generation, resource := updated }
            with ⟨r4, st4, tr4⟩
          rw [hl] at hm
          simp only at hm
          intro he
          rcases List.mem_cons.mp he with h1 | h2
          · subst h1; exact Or.inl ⟨_, rfl, rfl⟩
          · rcases List.mem_cons.mp h2 with h3 | h4
            · exact Or.inr (Or.inl h3)
            · rcases List.mem_append.mp h4 with h5 | h6
              · simp only [List.mem_singleton] at h5
                subst h5
                exact Or.inr (Or.inr (Or.inl rfl))
              · rcases hm e h6 with h7 | h7 | h7 | h7
                · exact Or.inl h7
                · exact Or.inr (Or.inl h7)
                · exact Or.inr (Or.inr (Or.inl h7))
                · refine Or.inr (Or.inr (Or.inr ?_))
                  have hn : st2.num_replicas_before = st.num_replicas_before := by
                    simpa [presSt] using hp.2.2
                  simpa [hn] using h7
      · simp only [h]
        intro he
        simp only [List.mem_singleton] at he
        subst he
        exact Or.inl ⟨_, rfl, rfl⟩

lemma mem_update_pod_affinity (env : Env) (values : List String) (st : St) :
    ∀ e ∈ (update_pod_affinity env values st).2.2,
      (∃ b, e = Ev.replaceCall b ∧ b.affinity = some (buildAffinity values)) ∨
      e = Ev.sleep 1 ∨ e = Ev.readCall ∨
      e = Ev.patchCall st.num_replicas_before := by
  unfold update_pod_affinity
  refine forall_mem_bindStep ?_ ?_
  · exact mem_update_affinity_loop env (buildAffinity values) 60 st
  · intro a
    refine forall_mem_bindStep ?_ ?_
    · intro e he
      rw [trace_get_deployment_info] at he
      simp only [List.mem_singleton] at he
      subst he
      simp
    · intro d e he
      simp at he

lemma mem_converge_loop (env : Env) :
    ∀ fuel sl st, ∀ e ∈ (converge_loop env fuel sl st).2.2,
      e = Ev.sleep 1 ∨ e = Ev.readCall := by
  intro fuel
  induction fuel with
  | zero =>
      intro sl st e
      unfold converge_loop
      split <;> intro he <;> simp at he
  | succ f ih =>
      intro sl st e
      unfold converge_loop
      split
      · have ht := trace_get_deployment_status env st
        rcases hg : get_deployment_status env st with ⟨r, st1, tr⟩
        rw [hg] at ht
        simp only at ht
        subst ht
        rcases r with e2 | sl2
        · intro he
          rcases List.mem_cons.mp he with h1 | h2
          · exact Or.inl h1
          · simp only [List.mem_singleton] at h2
            subst h2
            exact Or.inr rfl
        · have hm := ih sl2 st1
          intro he
          rcases List.mem_cons.mp he with h1 | h2
          · exact Or.inl h1
          · rcases List.mem_append.mp h2 with h3 | h4
            · simp only [List.mem_singleton] at h3
              subst h3
              exact Or.inr rfl
            · exact hm e h4
      · intro he
        simp at he

lemma mem_hard_mode_cycle (env : Env) (st : St) :
    ∀ e ∈ (hard_mode_cycle env st).2.2,
      e = Ev.hardMode ∨ e = Ev.patchCall 0 ∨
      e = Ev.patchCall st.num_replicas_before ∨ e = Ev.sleep 1 ∨ e = Ev.readCall := by
  unfold hard_mode_cycle
  refine forall_mem_bindStep ?_ ?_
  · intro e he
    simp only [emit, List.mem_singleton] at he
    subst he
    simp
  · intro a
    refine forall_mem_bindStep ?_ ?_
    · intro e he
      rcases mem_set_pod_replica env 0 st e he with h | h | h
      · exact Or.inr (Or.inl h)
      · exact Or.inr (Or.inr (Or.inr (Or.inl h)))
      · exact Or.inr (Or.inr (Or.inr (Or.inr h)))
    · intro b
      refine forall_mem_bindStep ?_ ?_
      · intro e he
        simp only [emit, List.mem_singleton] at he
        subst he
        simp
      · intro c
        have hp := pres_set_pod_replica env 0 st
        intro e he
        rcases mem_set_pod_replica env _ _ e he with h | h | h
        · refine Or.inr (Or.inr (Or.inl ?_))
          have hn : (emit (Ev.sleep 1)
              (set_pod_replica env 0 (emit Ev.hardMode st).2.1).2.1).2.1.num_replicas_before
              = st.num_replicas_before := hp.2.2
          exact hn ▸ h
        · exact Or.inr (Or.inr (Or.inr (Or.inl h)))
        · exact Or.inr (Or.inr (Or.inr (Or.inr h)))

/-! Evaluation lemmas for the convergence poll and the workflow boundary. -/

lemma converge_loop_exit (env : Env) (fuel : Nat) (sl : List String) (st : St)
    (h : KUBE_ERROR_TYPE ∉ sl) :
    converge_loop env fuel sl st = (.ok (), st, []) := by
  unfold converge_loop
  simp [h]

lemma converge_loop_succ (env : Env) (f : Nat) (sl : List String) (st : St)
    (hin : KUBE_ERROR_TYPE ∈ sl) :
    converge_loop env (f + 1) sl st =
      (match get_deployment_status env st with
       | (.error e, st1, tr) => (.error e, st1, .sleep 1 :: tr)
       | (.ok sl2, st1, tr) =>
           match converge_loop env f sl2 st1 with
           | (r, st2, tr2) => (r, st2, .sleep 1 :: (tr ++ tr2))) := by
  conv_lhs => rw [converge_loop.eq_def]
  rw [if_pos hin]

/-- Convergence poll when the error condition is present in the entry list
and on every fetch from the current read counter on: the exception after
exactly `fuel` sleep-and-refetch polls. -/
lemma converge_loop_fail (env : Env) :
    ∀ fuel sl st,
      (∀ i, st.reads ≤ i → ∃ d cs, env.read i = .ok d ∧ d.conditions = some cs ∧
        KUBE_ERROR_TYPE ∈ cs) →
      KUBE_ERROR_TYPE ∈ sl →
      ∃ st9 tr, converge_loop env fuel sl st = (.error .kubernetesException, st9, tr) ∧
        countSleep1 tr = fuel ∧ countReads tr = fuel := by
  intro fuel
  induction fuel with
  | zero =>
      intro sl st _ hin
      refine ⟨st, [], ?_, rfl, rfl⟩
      unfold converge_loop
      simp [hin]
  | succ f ih =>
      intro sl st hRF hin
      obtain ⟨d, cs, hd, hc, hcs⟩ := hRF st.reads (Nat.le_refl _)
      obtain ⟨st9, tr, heq, h1, h2⟩ :=
        ih cs { st with reads := st.reads + 1, resource := d }
          (fun i hi => hRF i (Nat.le_of_succ_le hi)) hcs
      refine ⟨st9, .sleep 1 :: ([.readCall] ++ tr), ?_, ?_, ?_⟩
      · rw [converge_loop_succ env f sl st hin, get_deployment_status_ok hd hc]
        try dsimp only
        rw [heq]
      · simp only [countSleep1] at h1
        simp only [countSleep1, List.countP_cons, List.countP_append, isSleep1,
          List.countP_nil, Bool.false_eq_true, eq_self_iff_true, if_true, if_false]
        omega
      · simp only [countReads] at h2
        simp only [countReads, List.countP_cons, List.countP_append, isRead,
          List.countP_nil, Bool.false_eq_true, eq_self_iff_true, if_true, if_false]
        omega

lemma reallocate_body_decomp (env : Env) (values : List String) (st : St)
    (st1 : St) (tr1 : List Ev) (sl1 : List String) (st3 : St) (tr2 : List Ev)
    (hsoft : update_pod_affinity env values st = (.ok (), st1, tr1))
    (hstat : get_deployment_status env st1 = (.ok sl1, st3, tr2)) :
    reallocate_body env values st =
      ((postGate env sl1 st3).1, (postGate env sl1 st3).2.1,
       tr1 ++ ([.sleep 3] ++ (tr2 ++ (postGate env sl1 st3).2.2))) := by
  unfold reallocate_body
  rw [hsoft, bindStep_ok]
  simp only [emit]
  rw [bindStep_ok]
  rw [hstat, bindStep_ok]
  rfl

lemma reallocate_body_decomp_statErr (env : Env) (values : List String) (st : St)
    (st1 : St) (tr1 : List Ev) (e : Err) (st3 : St) (tr2 : List Ev)
    (hsoft : update_pod_affinity env values st = (.ok (), st1, tr1))
    (hstat : get_deployment_status env st1 = (.error e, st3, tr2)) :
    reallocate_body env values st = (.error e, st3, tr1 ++ ([.sleep 3] ++ tr2)) := by
  unfold reallocate_body
  rw [hsoft, bindStep_ok]
  simp only [emit]
  rw [bindStep_ok]
  rw [hstat, bindStep_err]

lemma reallocate_body_decomp_softErr (env : Env) (values : List String) (st : St)
    (st1 : St) (tr1 : List Ev) (e : Err)
    (hsoft : update_pod_affinity env values st = (.error e, st1, tr1)) :
    reallocate_body env values st = (.error e, st1, tr1) := by
  unfold reallocate_body
  rw [hsoft, bindStep_err]

lemma reallocate_pod_of_ok (env : Env) (values : List String) (st : St)
    (u : Unit) (st1 : St) (tr : List Ev)
    (h : reallocate_body env values st = (.ok u, st1, tr)) :
    reallocate_pod env values st = (.ok ⟨st1.deploy_name, true⟩, st1, tr) := by
  unfold reallocate_pod
  rw [h]

lemma reallocate_pod_of_kube (env : Env) (values : List String) (st : St)
    (st1 : St) (tr : List Ev)
    (h : reallocate_body env values st = (.error .kubernetesException, st1, tr)) :
    reallocate_pod env values st = (.ok ⟨st1.deploy_name, false⟩, st1, tr) := by
  unfold reallocate_pod
  rw [h]

lemma reallocate_pod_of_err (env : Env) (values : List String) (st : St)
    (e : Err) (st1 : St) (tr : List Ev)
    (h : reallocate_body env values st = (.error e, st1, tr))
    (hne : e ≠ .kubernetesException) :
    reallocate_pod env values st = (.error e, st1, tr) := by
  unfold reallocate_pod
  rw [h]
  rcases e with _ | r | _ | _
  · rfl
  · rfl
  · exact absurd rfl hne
  · rfl

/-! Success results never carry a replica patch. -/

lemma update_affinity_loop_ok_noPatch (env : Env) (aff : Affinity) :
    ∀ fuel st st1 tr, update_affinity_loop env aff fuel st = (.ok (), st1, tr) →
      countPatches tr = 0 := by
  intro fuel
  induction fuel with
  | zero =>
      intro st st1 tr
      unfold update_affinity_loop
      cases h : env.replace st.replaces
      · simp only [h]
        rcases hs : set_pod_replica env st.num_replicas_before
            { st with
              resource := { st.resource with affinity := some aff },
              replaces := st.replaces + 1 } with ⟨r, st2, tr2⟩
        rcases r with e | u <;> intro heq <;> simp [Prod.mk.injEq] at heq
      · simp only [h]
        intro heq
        simp only [Prod.mk.injEq] at heq
        obtain ⟨-, -, htr⟩ := heq
        subst htr
        simp [countPatches]
  | succ f ih =>
      intro st st1 tr
      unfold update_affinity_loop
      cases h : env.replace st.replaces
      · simp only [h]
        have ht := trace_get_deployment_info env
            { st with
              resource := { st.resource with affinity := some aff },
              replaces := st.replaces + 1 }
        rcases hg : get_deployment_info env
            { st with
              resource := { st.resource with affinity := some aff },
              replaces := st.replaces + 1 } with ⟨r, st2, tr2⟩
        rw [hg] at ht
        simp only at ht
        subst ht
        rcases r with e | updated
        · simp only [hg]
          intro heq
          simp [Prod.mk.injEq] at heq
        · simp only [hg]
          rcases hl : update_affinity_loop env aff f
              { st2 with current_version := updated.generation, resource := updated }
              with ⟨r4, st4, tr4⟩
          simp only [hl]
          rcases r4 with e4 | u4
          · intro heq
            simp [Prod.mk.injEq] at heq
          · intro heq
            simp only [Prod.mk.injEq] at heq
            obtain ⟨-, -, htr⟩ := heq
            subst htr
            cases u4
            have h4 := ih _ _ _ hl
            simp only [countPatches] at h4
            simp only [countPatches, List.countP_cons, List.countP_append, isPatch,
              List.countP_nil, Bool.false_eq_true, eq_self_iff_true, if_true, if_false]
            omega
      · simp only [h]
        intro heq
        simp only [Prod.mk.injEq] at heq
        obtain ⟨-, -, htr⟩ := heq
        subst htr
        simp [countPatches]

lemma update_pod_affinity_ok_noPatch (env : Env) (values : List String) (st : St)
    (st1 : St) (tr : List Ev)
    (h : update_pod_affinity env values st = (.ok (), st1, tr)) :
    countPatches tr = 0 := by
  unfold update_pod_affinity at h
  rcases hl : update_affinity_loop env (buildAffinity values) 60 st with ⟨r, st2, tr2⟩
  rw [hl] at h
  rcases r with e | u
  · rw [bindStep_err] at h
    simp [Prod.mk.injEq] at h
  · rw [bindStep_ok] at h
    have ht := trace_get_deployment_info env st2
    rcases hg : get_deployment_info env st2 with ⟨r3, st3, tr3⟩
    rw [hg] at h ht
    simp only at ht
    subst ht
    rcases r3 with e3 | d3
    · rw [bindStep_err] at h
      simp [Prod.mk.injEq] at h
    · rw [bindStep_ok] at h
      simp only [Prod.mk.injEq] at h
      obtain ⟨-, -, htr⟩ := h
      subst htr
      cases u
      have h2 := update_affinity_loop_ok_noPatch env (buildAffinity values) 60 st st2 tr2 hl
      simp only [countPatches] at h2
      simp only [countPatches, List.countP_cons, List.countP_append, isPatch,
        List.countP_nil, Bool.false_eq_true, eq_self_iff_true, if_true, if_false]
      omega

lemma hardMode_mem_hard_mode_cycle (env : Env) (st : St) :
    Ev.hardMode ∈ (hard_mode_cycle env st).2.2 := by
  unfold hard_mode_cycle
  rw [show emit Ev.hardMode st = (.ok (), st, [Ev.hardMode]) from rfl, bindStep_ok]
  simp

lemma trace_reallocate_pod (env : Env) (values : List String) (st : St) :
    (reallocate_pod env values st).2.2 = (reallocate_body env values st).2.2 := by
  unfold reallocate_pod
  rcases hb : reallocate_body env values st with ⟨r, st1, tr⟩
  rcases r with e | u
  · rcases e <;> rfl
  · rfl

lemma mem_bindStep_left {α β : Type} {e : Ev} {x : Except Err α × St × List Ev}
    {f : α → St → Except Err β × St × List Ev}
    (he : e ∈ x.2.2) : e ∈ (bindStep x f).2.2 := by
  rcases x with ⟨r, st1, tr⟩
  rcases r with e2 | a
  · exact he
  · rcases h : f a st1 with ⟨r2, st2, tr2⟩
    simp only [bindStep, h]
    exact List.mem_append.mpr (Or.inl he)

/-- One unfolding of the affinity retry loop on a failing replace with
budget left. -/
lemma update_affinity_loop_succ_err (env : Env) (aff : Affinity) (f : Nat) (st : St)
    (hrep : env.replace st.replaces = false) :
    update_affinity_loop env aff (f + 1) st =
      (match get_deployment_info env
          { st with
            resource := { st.resource with affinity := some aff },
            replaces := st.replaces + 1 } with
       | (.error e, st2, tr2) =>
           (.error e, st2,
            .replaceCall { st.resource with affinity := some aff } :: .sleep 1 :: tr2)
       | (.ok updated, st2, tr2) =>
           match update_affinity_loop env aff f
               { st2 with current_version := updated.generation, resource := updated } with
           | (r, st4, tr3) =>
               (r, st4,
                .replaceCall { st.resource with affinity := some aff } :: .sleep 1 ::
                  (tr2 ++ tr3))) := by
  conv_lhs => rw [update_affinity_loop.eq_def]
  rw [hrep]

/-- Every replica patch issued anywhere inside the workflow body targets
either zero (hard-mode scale-down) or the replica count recorded at
construction. -/
lemma mem_reallocate_body_patches (env : Env) (values : List String) (st : St) :
    ∀ e ∈ (reallocate_body env values st).2.2, ∀ tgt : Int, e = Ev.patchCall tgt →
      tgt = 0 ∨ tgt = st.num_replicas_before := by
  unfold reallocate_body
  have hn1 : ((update_pod_affinity env values st).2.1).num_replicas_before
      = st.num_replicas_before := (pres_update_pod_affinity env values st).2.2
  refine forall_mem_bindStep ?_ ?_
  · intro e he tgt heq
    subst heq
    rcases mem_update_pod_affinity env values st _ he with ⟨b, h1, -⟩ | h1 | h1 | h1
    · simp at h1
    · simp at h1
    · simp at h1
    · right
      simpa using h1
  · intro a
    refine forall_mem_bindStep ?_ ?_
    · intro e he tgt heq
      subst heq
      simp [emit] at he
    · intro b
      set stA := (update_pod_affinity env values st).2.1 with hstA
      have hn2 : ((get_deployment_status env stA).2.1).num_replicas_before
          = st.num_replicas_before :=
        (pres_get_deployment_status env stA).2.2.trans hn1
      refine forall_mem_bindStep ?_ ?_
      · intro e he tgt heq
        subst heq
        rw [trace_get_deployment_status] at he
        simp at he
      · intro sl1
        set stB := (get_deployment_status env stA).2.1 with hstB
        refine forall_mem_bindStep ?_ ?_
        · intro e he tgt heq
          subst heq
          by_cases hin : KUBE_ERROR_TYPE ∈ sl1
          · rw [if_pos hin] at he
            rcases mem_hard_mode_cycle env stB _ he with h1 | h1 | h1 | h1 | h1
            · simp at h1
            · left
              simpa using h1
            · right
              have h2 : tgt = stB.num_replicas_before := by simpa using h1
              exact h2.trans hn2
            · simp at h1
            · simp at h1
          · rw [if_neg hin] at he
            simp at he
        · intro c
          refine forall_mem_bindStep ?_ ?_
          · intro e he tgt heq
            subst heq
            rw [trace_get_deployment_status] at he
            simp at he
          · intro sl2 e he tgt heq
            subst heq
            rcases mem_converge_loop env 60 sl2 _ _ he with h1 | h1 <;> simp at h1

/-! Small-step evaluation lemmas used to run the fixture scenarios without
unfolding the bounded loops iteration by iteration. -/

lemma bindStep_emit {β : Type} (ev : Ev) (st : St)
    (f : Unit → St → Except Err β × St × List Ev) :
    bindStep (emit ev st) f = ((f () st).1, (f () st).2.1, [ev] ++ (f () st).2.2) := by
  rw [show emit ev st = (.ok (), st, [ev]) from rfl, bindStep_ok]

lemma get_deployment_info_ok2 (env : Env) (st : St) (d : Deployment)
    (h : env.read st.reads = .ok d) :
    get_deployment_info env st =
      (.ok d, { st with reads := st.reads + 1 }, [.readCall]) :=
  get_deployment_info_ok h

lemma get_deployment_status_ok2 (env : Env) (st : St) (d : Deployment) (cs : List String)
    (h : env.read st.reads = .ok d) (hc : d.conditions = some cs) :
    get_deployment_status env st =
      (.ok cs, { st with reads := st.reads + 1, resource := d }, [.readCall]) :=
  get_deployment_status_ok h hc

/-- Affinity retry loop when the first replace call succeeds. -/
lemma update_affinity_loop_first (env : Env) (aff : Affinity) (fuel : Nat) (st : St)
    (hrep : env.replace st.replaces = true) :
    update_affinity_loop env aff fuel st =
      (.ok (), { st with
                 resource := { st.resource with affinity := some aff },
                 replaces := st.replaces + 1 },
       [.replaceCall { st.resource with affinity := some aff }]) := by
  conv_lhs => rw [update_affinity_loop.eq_def]
  rw [hrep]

/-- Affinity mutator when the first replace call and the follow-up read
succeed. -/
lemma update_pod_affinity_first (env : Env) (values : List String) (st : St)
    (d : Deployment)
    (hrep : env.replace st.replaces = true)
    (hread : env.read st.reads = .ok d) :
    update_pod_affinity env values st =
      (.ok (),
       { st with resource := d, replaces := st.replaces + 1, reads := st.reads + 1 },
       [.replaceCall { st.resource with affinity := some (buildAffinity values) },
        .readCall]) := by
  unfold update_pod_affinity
  rw [update_affinity_loop_first env (buildAffinity values) 60 st hrep, bindStep_ok]
  try dsimp only
  rw [get_deployment_info_ok2 env
    { st with
      resource := { st.resource with affinity := some (buildAffinity values) },
      replaces := st.replaces + 1 } d hread, bindStep_ok]
  rfl

/-- Hard-mode cycle when both patch calls and both follow-up reads
succeed. -/
lemma hard_mode_cycle_eval (env : Env) (st : St) (d1 d2 : Deployment)
    (hp1 : env.patch st.patches = true)
    (hr1 : env.read st.reads = .ok d1)
    (hp2 : env.patch (st.patches + 1) = true)
    (hr2 : env.read (st.reads + 1) = .ok d2) :
    hard_mode_cycle env st =
      (.ok (),
       { st with patches := st.patches + 1 + 1, reads := st.reads + 1 + 1,
                 current_version := d2.generation, resource := d2 },
       [Ev.hardMode] ++ (([.patchCall 0, .readCall] : List Ev) ++
         ([Ev.sleep 1] ++ [.patchCall st.num_replicas_before, .readCall]))) := by
  unfold hard_mode_cycle
  rw [bindStep_emit]
  try dsimp only
  rw [set_pod_replica_first env 0 st d1 hp1 hr1, bindStep_ok]
  try dsimp only
  rw [bindStep_emit]
  try dsimp only
  rw [set_pod_replica_first env st.num_replicas_before
    { st with
      patches := st.patches + 1,
      reads := st.reads + 1,
      current_version := d1.generation,
      resource := d1 } d2 hp2 hr2]

/-- Fixture run against `envStuck` (error condition on every fetch): the
workflow body escalates to hard mode, times out in the convergence poll,
and fails with the budget-exhaustion error. -/
lemma stuck_body_raises (values : List String) :
    ∃ st9 tr, reallocate_body envStuck values st0 =
        (.error .kubernetesException, st9, tr) ∧
      Ev.hardMode ∈ tr ∧ Ev.patchCall 3 ∈ tr ∧ st9.deploy_name = "api" := by
  have h1 : update_pod_affinity envStuck values st0 =
      (.ok (), stuckA,
       [.replaceCall { st0.resource with affinity := some (buildAffinity values) },
        .readCall]) :=
    update_pod_affinity_first envStuck values st0 dErr rfl rfl
  have h2 : get_deployment_status envStuck stuckA =
      (.ok [KUBE_ERROR_TYPE], stuckB, [.readCall]) :=
    get_deployment_status_ok2 envStuck stuckA dErr [KUBE_ERROR_TYPE] rfl rfl
  have h5 : hard_mode_cycle envStuck stuckB =
      (.ok (), stuckC,
       [Ev.hardMode] ++ (([.patchCall 0, .readCall] : List Ev) ++
         ([Ev.sleep 1] ++ [.patchCall 3, .readCall]))) :=
    hard_mode_cycle_eval envStuck stuckB dErr dErr rfl rfl rfl rfl
  have h6 : get_deployment_status envStuck stuckC =
      (.ok [KUBE_ERROR_TYPE], stuckD, [.readCall]) :=
    get_deployment_status_ok2 envStuck stuckC dErr [KUBE_ERROR_TYPE] rfl rfl
  obtain ⟨stE, trC, hcv, -, -⟩ :=
    converge_loop_fail envStuck 60 [KUBE_ERROR_TYPE] stuckD
      (fun i _ => ⟨dErr, [KUBE_ERROR_TYPE], rfl, rfl, by simp⟩) (by simp)
  have hpres := pres_converge_loop envStuck 60 [KUBE_ERROR_TYPE] stuckD
  rw [hcv] at hpres
  have hpg : postGate envStuck [KUBE_ERROR_TYPE] stuckB =
      (.error .kubernetesException, stE,
       ([Ev.hardMode] ++ (([.patchCall 0, .readCall] : List Ev) ++
         ([Ev.sleep 1] ++ [.patchCall 3, .readCall]))) ++
       ([.readCall] ++ trC)) := by
    unfold postGate
    rw [if_pos (by simp : KUBE_ERROR_TYPE ∈ [KUBE_ERROR_TYPE])]
    rw [h5, bindStep_ok]
    try dsimp only
    rw [h6, bindStep_ok]
    try dsimp only
    rw [hcv]
  have h3 := reallocate_body_decomp envStuck values st0 stuckA
    [.replaceCall { st0.resource with affinity := some (buildAffinity values) },
     .readCall] [KUBE_ERROR_TYPE] stuckB [.readCall] h1 h2
  rw [hpg] at h3
  dsimp only at h3
  refine ⟨stE, _, h3, ?_, ?_, hpres.1⟩
  · simp
  · simp

/-- Fixture run against `envLateErr` (healthy until the status check after
the soft attempt, stuck afterwards): no replica patch ever happens, yet
the run fails with the budget-exhaustion error. -/
lemma late_body_raises :
    ∃ st9 tr, reallocate_body envLateErr ["n1"] st0 =
        (.error .kubernetesException, st9, tr) ∧
      countPatches tr = 0 ∧ st9.deploy_name = "api" := by
  have h1 : update_pod_affinity envLateErr ["n1"] st0 =
      (.ok (), lateA,
       [.replaceCall { st0.resource with affinity := some (buildAffinity ["n1"]) },
        .readCall]) :=
    update_pod_affinity_first envLateErr ["n1"] st0 dOk rfl rfl
  have h2 : get_deployment_status envLateErr lateA =
      (.ok [KUBE_AVAILABLE_TYPE], lateB, [.readCall]) :=
    get_deployment_status_ok2 envLateErr lateA dOk [KUBE_AVAILABLE_TYPE] rfl rfl
  have h6 : get_deployment_status envLateErr lateB =
      (.ok [KUBE_ERROR_TYPE], lateC, [.readCall]) :=
    get_deployment_status_ok2 envLateErr lateB dErr [KUBE_ERROR_TYPE] rfl rfl
  have hRF : ∀ i, lateC.reads ≤ i → ∃ d cs, envLateErr.read i = .ok d ∧
      d.conditions = some cs ∧ KUBE_ERROR_TYPE ∈ cs := by
    intro i hi
    have h4 : (4:Nat) ≤ i := hi
    refine ⟨dErr, [KUBE_ERROR_TYPE], ?_, rfl, by simp⟩
    simp only [envLateErr]
    rw [if_neg (by omega)]
  obtain ⟨stE, trC, hcv, -, -⟩ :=
    converge_loop_fail envLateErr 60 [KUBE_ERROR_TYPE] lateC hRF (by simp)
  have hpres := pres_converge_loop envLateErr 60 [KUBE_ERROR_TYPE] lateC
  rw [hcv] at hpres
  have hcp : countPatches trC = 0 := by
    have hm := mem_converge_loop envLateErr 60 [KUBE_ERROR_TYPE] lateC
    rw [hcv] at hm
    simp only [countPatches]
    rw [List.countP_eq_zero]
    intro e he
    rcases hm e he with h | h <;> subst h <;> simp
  have hpg : postGate envLateErr [KUBE_AVAILABLE_TYPE] lateB =
      (.error .kubernetesException, stE, [] ++ ([.readCall] ++ trC)) := by
    unfold postGate
    rw [if_neg (by decide : ¬ KUBE_ERROR_TYPE ∈ [KUBE_AVAILABLE_TYPE])]
    rw [bindStep_ok]
    try dsimp only
    rw [h6, bindStep_ok]
    try dsimp only
    rw [hcv]
  have h3 := reallocate_body_decomp envLateErr ["n1"] st0 lateA
    [.replaceCall { st0.resource with affinity := some (buildAffinity ["n1"]) },
     .readCall] [KUBE_AVAILABLE_TYPE] lateB [.readCall] h1 h2
  rw [hpg] at h3
  dsimp only at h3
  refine ⟨stE, _, h3, ?_, hpres.1⟩
  simp only [countPatches] at hcp
  simp only [countPatches, List.countP_cons, List.countP_append, isPatch,
    List.countP_nil, Bool.false_eq_true, eq_self_iff_true, if_true, if_false]
  omega

/-! Claims. -/

/-- C1 counterexample: in a run where the status read after the soft
attempt raises an `ApiException` (reason distinct from Not Found),
`reallocate_pod` raises that error to its caller instead of returning a
`{deployment_name, status}` result, so the claim that every internal
failure is converted to a status-false result is false. -/
theorem c1_counterexample :
    (reallocate_pod envReadBoom ["node1"] st0).1 = .error (.apiError ("Boom")) := by
  rfl

/-- C1 amended: once construction has succeeded, every budget-exhaustion
error (`KubernetesException`, the spec `ReallocationError`) raised during
the soft attempt, hard attempt or convergence poll is caught at the
workflow boundary and converted to `{deployment_name, status: false}`, a
successful body yields `{deployment_name, status: true}`, and a
`KubernetesException` never escapes `reallocate_pod`; errors of any other
kind (API read errors, the missing-conditions `TypeError`) are not of the
caught type and propagate to the caller. -/
theorem c1_boundary_amended (env : Env) (values : List String) (st : St) :
    ((reallocate_body env values st).1 = .error .kubernetesException →
      (reallocate_pod env values st).1 = .ok ⟨st.deploy_name, false⟩)
    ∧ ((reallocate_body env values st).1 = .ok () →
      (reallocate_pod env values st).1 = .ok ⟨st.deploy_name, true⟩)
    ∧ (∀ e, (reallocate_pod env values st).1 = .error e →
      e ≠ .kubernetesException) := by
  have hp := pres_reallocate_body env values st
  rcases hb : reallocate_body env values st with ⟨r, st1, tr⟩
  rw [hb] at hp
  have hd : st1.deploy_name = st.deploy_name := hp.1
  refine ⟨?_, ?_, ?_⟩
  · intro h
    have h2 : r = .error .kubernetesException := h
    subst h2
    rw [reallocate_pod_of_kube env values st st1 tr hb]
    simp [hd]
  · intro h
    have h2 : r = .ok () := h
    subst h2
    rw [reallocate_pod_of_ok env values st () st1 tr hb]
    simp [hd]
  · intro e h
    rcases r with e2 | u
    · rcases e2 with _ | reason | _ | _
      · rw [reallocate_pod_of_err env values st .notFound st1 tr hb (by simp)] at h
        simp only [Except.error.injEq] at h
        subst h
        simp
      · rw [reallocate_pod_of_err env values st (.apiError reason) st1 tr hb
          (by simp)] at h
        simp only [Except.error.injEq] at h
        subst h
        simp
      · rw [reallocate_pod_of_kube env values st st1 tr hb] at h
        simp at h
      · rw [reallocate_pod_of_err env values st .typeError st1 tr hb (by simp)] at h
        simp only [Except.error.injEq] at h
        subst h
        simp
    · cases u
      rw [reallocate_pod_of_ok env values st () st1 tr hb] at h
      simp at h

theorem c1_boundary_amended_witness :
    (reallocate_body envStuck ["node1"] st0).1 = .error .kubernetesException ∧
    (reallocate_pod envStuck ["node1"] st0).1 = .ok ⟨"api", false⟩ ∧
    (reallocate_body envHealthy ["node1"] st0).1 = .ok () ∧
    (reallocate_pod envHealthy ["node1"] st0).1 = .ok ⟨"api", true⟩ := by
  obtain ⟨st9, tr, heq, -, -, -⟩ := stuck_body_raises ["node1"]
  have h1 : (reallocate_body envStuck ["node1"] st0).1 = .error .kubernetesException := by
    rw [heq]
  have h3 : (reallocate_body envHealthy ["node1"] st0).1 = .ok () := by rfl
  exact ⟨h1, (c1_boundary_amended envStuck ["node1"] st0).1 h1, h3,
    (c1_boundary_amended envHealthy ["node1"] st0).2.1 h3⟩

/-- C2 counterexample: with every patch call failing, the replica setter
performs 61 attempts (not 60) before raising the budget-exhaustion error. -/
theorem c2_counterexample :
    (set_pod_replica envPatchDown 5 st0).1 = .error .kubernetesException ∧
    countPatches (set_pod_replica envPatchDown 5 st0).2.2 = 61 ∧
    ¬ countPatches (set_pod_replica envPatchDown 5 st0).2.2 = 60 := by
  rw [@set_pod_replica_fail envPatchDown 5 st0 (fun i => rfl)]
  have h := countPatches_attemptTrace 5 60
  refine ⟨rfl, ?_, ?_⟩
  · dsimp only
    omega
  · dsimp only
    omega

/-- C2 amended: for either retry-wrapped mutating operation, if the
underlying call fails on every attempt the operation performs exactly 61
attempts with a 1-second delay after each of the first 60 and then raises
the budget-exhaustion error; if the call first succeeds on attempt `k`
(`k = j + 1 ≤ 61`), exactly `k` attempts are performed. -/
theorem c2_retry_budget_amended :
    (∀ env : Env, ∀ (target : Int) (st : St), (∀ i, env.patch i = false) →
      (set_pod_replica env target st).1 = .error .kubernetesException ∧
      countPatches (set_pod_replica env target st).2.2 = 61 ∧
      countSleep1 (set_pod_replica env target st).2.2 = 60)
    ∧ (∀ env : Env, ∀ (target : Int) (st : St) (j : Nat) (d : Deployment), j ≤ 60 →
      (∀ i, i < j → env.patch (st.patches + i) = false) →
      env.patch (st.patches + j) = true → env.read st.reads = .ok d →
      (set_pod_replica env target st).1 = .ok () ∧
      countPatches (set_pod_replica env target st).2.2 = j + 1)
    ∧ (∀ env : Env, ∀ (values : List String) (st : St),
      (∀ i, env.replace i = false) → (∀ i, ∃ d, env.read i = .ok d) →
      (∀ i, env.patch i = true) →
      (update_pod_affinity env values st).1 = .error .kubernetesException ∧
      countReplaces (update_pod_affinity env values st).2.2 = 61 ∧
      countSleep1 (update_pod_affinity env values st).2.2 = 60)
    ∧ (∀ env : Env, ∀ (values : List String) (st : St) (j : Nat), j ≤ 60 →
      (∀ i, ∃ d, env.read i = .ok d) →
      (∀ i, i < j → env.replace (st.replaces + i) = false) →
      env.replace (st.replaces + j) = true →
      (update_pod_affinity env values st).1 = .ok () ∧
      countReplaces (update_pod_affinity env values st).2.2 = j + 1) := by
  refine ⟨?_, ?_, ?_, ?_⟩
  · intro env target st hfail
    rw [set_pod_replica_fail target st hfail]
    exact ⟨rfl, by simpa [countPatches_attemptTrace] using countPatches_attemptTrace target 60,
      by simpa using countSleep1_attemptTrace target 60⟩
  · intro env target st j d hle hfail hsucc hread
    rw [set_pod_replica_succ env target st j d hfail hsucc hle hread]
    refine ⟨rfl, ?_⟩
    have h1 := countPatches_attemptTrace target j
    simp only [countPatches, List.countP_append] at h1 ⊢
    simp [h1]
  · intro env values st hrep hread hpatch
    obtain ⟨st9, tr, heq, hc1, hc2, hc3, -, -, -⟩ :=
      update_pod_affinity_fail env values st hrep hread hpatch
    rw [heq]
    exact ⟨rfl, hc1, hc2⟩
  · intro env values st j hle hread hfail hsucc
    obtain ⟨st9, tr, heq, hc1, -, -, -, -⟩ :=
      update_pod_affinity_succ env values st j hread hfail hsucc hle
    rw [heq]
    exact ⟨rfl, hc1⟩

theorem c2_retry_budget_amended_witness :
    countPatches (set_pod_replica envPatchDown 5 st0).2.2 = 61 ∧
    countPatches (set_pod_replica envPatchThird 5 st0).2.2 = 3 ∧
    countReplaces (update_pod_affinity envReplaceDown ["n1"] st0).2.2 = 61 ∧
    countReplaces (update_pod_affinity envReplaceSecond ["n1"] st0).2.2 = 2 := by
  refine ⟨(c2_retry_budget_amended.1 envPatchDown 5 st0 (fun i => rfl)).2.1,
    (c2_retry_budget_amended.2.1 envPatchThird 5 st0 2 dOk (by decide) (by decide)
      (by rfl) (by rfl)).2,
    (c2_retry_budget_amended.2.2.1 envReplaceDown ["n1"] st0 (fun i => rfl)
      (fun i => ⟨dOk, rfl⟩) (fun i => rfl)).2.1,
    (c2_retry_budget_amended.2.2.2 envReplaceSecond ["n1"] st0 1 (by decide)
      (fun i => ⟨dOk, rfl⟩) (by decide) (by rfl)).2⟩

/-- C3: whenever the affinity-replace retry budget is exhausted (every
replace call fails; reads and the rollback patch succeed), the replica
count is restored to the value recorded at construction via the replica
setter — the restore patch call is in the trace — before the
budget-exhaustion error surfaces, for every avoid-list. -/
theorem c3_rollback_on_exhaustion (env : Env) (values : List String) (st : St)
    (hrep : ∀ i, env.replace i = false)
    (hread : ∀ i, ∃ d, env.read i = .ok d)
    (hpatch : ∀ i, env.patch i = true) :
    (update_pod_affinity env values st).1 = .error .kubernetesException ∧
    Ev.patchCall st.num_replicas_before ∈ (update_pod_affinity env values st).2.2 := by
  obtain ⟨st9, tr, heq, -, -, -, hmem, -, -⟩ :=
    update_pod_affinity_fail env values st hrep hread hpatch
  rw [heq]
  exact ⟨rfl, hmem⟩

theorem c3_rollback_on_exhaustion_witness :
    (update_pod_affinity envReplaceDown ["n1"] st0).1 = .error .kubernetesException ∧
    Ev.patchCall 3 ∈ (update_pod_affinity envReplaceDown ["n1"] st0).2.2 :=
  c3_rollback_on_exhaustion envReplaceDown ["n1"] st0 (fun i => rfl)
    (fun i => ⟨dOk, rfl⟩) (fun i => rfl)

/-- C5: if every status fetch carries the `ReplicaFailure` condition, a run
entering the convergence poll performs exactly 60 sleep-and-refetch polls
and stops with the budget-exhaustion error, which the workflow boundary
converts to `{deployment_name, status: false}`. -/
theorem c5_convergence_timeout (env : Env)
    (hRF : ∀ i, ∃ d cs, env.read i = .ok d ∧ d.conditions = some cs ∧
      KUBE_ERROR_TYPE ∈ cs) :
    (∀ sl st, KUBE_ERROR_TYPE ∈ sl →
      ∃ st9 tr, converge_loop env 60 sl st = (.error .kubernetesException, st9, tr) ∧
        countSleep1 tr = 60 ∧ countReads tr = 60)
    ∧ (∀ (env2 : Env) (values : List String) (st st1 : St) (tr : List Ev),
      reallocate_body env2 values st = (.error .kubernetesException, st1, tr) →
      (reallocate_pod env2 values st).1 = .ok ⟨st.deploy_name, false⟩) := by
  refine ⟨fun sl st hin => converge_loop_fail env 60 sl st (fun i _ => hRF i) hin, ?_⟩
  intro env2 values st st1 tr hbody
  have hp := pres_reallocate_body env2 values st
  rw [hbody] at hp
  have hd : st1.deploy_name = st.deploy_name := hp.1
  rw [reallocate_pod_of_kube env2 values st st1 tr hbody]
  simp [hd]

theorem c5_convergence_timeout_witness :
    (∃ st9 tr, converge_loop envStuck 60 [KUBE_ERROR_TYPE] st0 =
        (.error .kubernetesException, st9, tr) ∧
        countSleep1 tr = 60 ∧ countReads tr = 60) ∧
    (reallocate_pod envStuck ["n1"] st0).1 = .ok ⟨"api", false⟩ := by
  have hRF : ∀ i, ∃ d cs, envStuck.read i = .ok d ∧ d.conditions = some cs ∧
      KUBE_ERROR_TYPE ∈ cs := fun i => ⟨dErr, [KUBE_ERROR_TYPE], rfl, rfl, by simp⟩
  obtain ⟨st9, tr, heq, -, -, -⟩ := stuck_body_raises ["n1"]
  refine ⟨(c5_convergence_timeout envStuck hRF).1 [KUBE_ERROR_TYPE] st0 (by simp), ?_⟩
  exact (c5_convergence_timeout envStuck hRF).2 envStuck ["n1"] st0 st9 tr heq

/-- C4: in a run whose soft attempt and settle-delay status fetch both
succeed, the hard-mode branch is entered if and only if the
`ReplicaFailure` condition type is present in the conditions returned by
that fetch. -/
theorem c4_escalation_gate (env : Env) (values : List String) (st : St)
    (st1 : St) (tr1 : List Ev) (sl1 : List String) (st3 : St) (tr2 : List Ev)
    (hsoft : update_pod_affinity env values st = (.ok (), st1, tr1))
    (hstat : get_deployment_status env st1 = (.ok sl1, st3, tr2)) :
    (Ev.hardMode ∈ (reallocate_pod env values st).2.2 ↔ KUBE_ERROR_TYPE ∈ sl1) := by
  rw [trace_reallocate_pod,
    reallocate_body_decomp env values st st1 tr1 sl1 st3 tr2 hsoft hstat]
  try dsimp only
  have ht2 : tr2 = [Ev.readCall] := by
    have h := trace_get_deployment_status env st1
    rw [hstat] at h
    simpa using h
  constructor
  · intro hmem
    by_contra hni
    simp only [List.mem_append] at hmem
    rcases hmem with h1 | h2 | h3 | h4
    · have h5 : Ev.hardMode ∈ (update_pod_affinity env values st).2.2 := by
        rw [hsoft]
        exact h1
      rcases mem_update_pod_affinity env values st _ h5 with ⟨b, hb, -⟩ | hb | hb | hb <;>
        simp at hb
    · simp at h2
    · rw [ht2] at h3
      simp at h3
    · have hnh : ∀ e ∈ (bindStep (get_deployment_status env st3) fun sl2 st5 =>
          converge_loop env 60 sl2 st5).2.2, e ≠ Ev.hardMode := by
        refine forall_mem_bindStep ?_ ?_
        · intro e he
          rw [trace_get_deployment_status] at he
          simp only [List.mem_singleton] at he
          subst he
          simp
        · intro sl2 e he
          rcases mem_converge_loop env 60 sl2 _ e he with h | h <;> subst h <;> simp
      have h6 : Ev.hardMode ∈ (bindStep (.ok (), st3, ([] : List Ev))
          fun _ st4 => bindStep (get_deployment_status env st4) fun sl2 st5 =>
            converge_loop env 60 sl2 st5).2.2 := by
        unfold postGate at h4
        rw [if_neg hni] at h4
        exact h4
      rw [bindStep_ok] at h6
      refine hnh Ev.hardMode ?_ rfl
      simpa using h6
  · intro hin
    have h5 : Ev.hardMode ∈ (postGate env sl1 st3).2.2 := by
      unfold postGate
      rw [if_pos hin]
      exact mem_bindStep_left (hardMode_mem_hard_mode_cycle env st3)
    simp only [List.mem_append]
    exact Or.inr (Or.inr (Or.inr h5))

theorem c4_escalation_gate_witness :
    ¬ Ev.hardMode ∈ (reallocate_pod envHealthy ["n1"] st0).2.2 ∧
    Ev.hardMode ∈ (reallocate_pod envStuck ["n1"] st0).2.2 := by
  constructor
  · intro hmem
    have h := (c4_escalation_gate envHealthy ["n1"] st0 _ _ [KUBE_AVAILABLE_TYPE] _ _
      (update_pod_affinity_first envHealthy ["n1"] st0 dOk rfl rfl)
      (get_deployment_status_ok2 envHealthy healthyA dOk [KUBE_AVAILABLE_TYPE]
        rfl rfl)).mp hmem
    simp [KUBE_ERROR_TYPE, KUBE_AVAILABLE_TYPE] at h
  · exact (c4_escalation_gate envStuck ["n1"] st0 _ _ [KUBE_ERROR_TYPE] _ _
      (update_pod_affinity_first envStuck ["n1"] st0 dErr rfl rfl)
      (get_deployment_status_ok2 envStuck stuckA dErr [KUBE_ERROR_TYPE]
        rfl rfl)).mpr (by simp)

/-- C6 counterexample: a run in which the status fetched after the soft
attempt lacks `ReplicaFailure` (it is exactly the healthy list), the
replica count is indeed never modified, and yet the run returns
`{deployment_name, status: false}` because the condition appears on the
convergence-entry fetch and never clears — refuting the claimed
`status: true`. -/
theorem c6_counterexample :
    (get_deployment_status envLateErr
      (update_pod_affinity envLateErr ["n1"] st0).2.1).1 = .ok [KUBE_AVAILABLE_TYPE] ∧
    countPatches (reallocate_pod envLateErr ["n1"] st0).2.2 = 0 ∧
    (reallocate_pod envLateErr ["n1"] st0).1 = .ok ⟨"api", false⟩ := by
  obtain ⟨st9, tr, heq, hcp, hdn⟩ := late_body_raises
  refine ⟨by rfl, ?_, ?_⟩
  · rw [trace_reallocate_pod, heq]
    exact hcp
  · rw [reallocate_pod_of_kube envLateErr ["n1"] st0 st9 tr heq]
    simp [hdn]

/-- C6 amended: if the `ReplicaFailure` condition is absent from the status
fetched after the soft affinity attempt, the replica count is never
modified at any point during the run (no patch call in the trace); if the
condition is also absent from the convergence-entry fetch, the run returns
`{deployment_name, status: true}`. -/
theorem c6_success_path_amended (env : Env) (values : List String) (st : St)
    (st1 : St) (tr1 : List Ev) (sl1 : List String) (st3 : St) (tr2 : List Ev)
    (sl2 : List String) (st4 : St) (tr4 : List Ev)
    (hsoft : update_pod_affinity env values st = (.ok (), st1, tr1))
    (hstat : get_deployment_status env st1 = (.ok sl1, st3, tr2))
    (hRF1 : KUBE_ERROR_TYPE ∉ sl1)
    (hstat2 : get_deployment_status env st3 = (.ok sl2, st4, tr4))
    (hRF2 : KUBE_ERROR_TYPE ∉ sl2) :
    (reallocate_pod env values st).1 = .ok ⟨st.deploy_name, true⟩ ∧
    countPatches (reallocate_pod env values st).2.2 = 0 := by
  have ht2 : tr2 = [Ev.readCall] := by
    have h := trace_get_deployment_status env st1
    rw [hstat] at h
    simpa using h
  have ht4 : tr4 = [Ev.readCall] := by
    have h := trace_get_deployment_status env st3
    rw [hstat2] at h
    simpa using h
  have hpg : postGate env sl1 st3 = (.ok (), st4, [] ++ (tr4 ++ [])) := by
    unfold postGate
    rw [if_neg hRF1, bindStep_ok]
    try dsimp only
    rw [hstat2, bindStep_ok]
    try dsimp only
    rw [converge_loop_exit env 60 sl2 st4 hRF2]
  have hbody : reallocate_body env values st =
      (.ok (), st4, tr1 ++ ([.sleep 3] ++ (tr2 ++ ([] ++ (tr4 ++ []))))) := by
    rw [reallocate_body_decomp env values st st1 tr1 sl1 st3 tr2 hsoft hstat, hpg]
  have hp1 := pres_update_pod_affinity env values st
  rw [hsoft] at hp1
  have hp2 := pres_get_deployment_status env st1
  rw [hstat] at hp2
  have hp3 := pres_get_deployment_status env st3
  rw [hstat2] at hp3
  have hd : st4.deploy_name = st.deploy_name := by
    have a1 : st1.deploy_name = st.deploy_name := hp1.1
    have a2 : st3.deploy_name = st1.deploy_name := hp2.1
    have a3 : st4.deploy_name = st3.deploy_name := hp3.1
    rw [a3, a2, a1]
  have hc1 : countPatches tr1 = 0 :=
    update_pod_affinity_ok_noPatch env values st st1 tr1 hsoft
  constructor
  · rw [reallocate_pod_of_ok env values st () st4 _ hbody]
    simp [hd]
  · rw [trace_reallocate_pod, hbody]
    subst ht2
    subst ht4
    simp only [countPatches] at hc1
    simp only [countPatches, List.countP_cons, List.countP_append, isPatch,
      List.countP_nil, Bool.false_eq_true, eq_self_iff_true, if_true, if_false]
    omega

theorem c6_success_path_amended_witness :
    (reallocate_pod envHealthy ["n1"] st0).1 = .ok ⟨"api", true⟩ ∧
    countPatches (reallocate_pod envHealthy ["n1"] st0).2.2 = 0 :=
  c6_success_path_amended envHealthy ["n1"] st0 _ _ [KUBE_AVAILABLE_TYPE] _ _
    [KUBE_AVAILABLE_TYPE] _ _
    (update_pod_affinity_first envHealthy ["n1"] st0 dOk rfl rfl)
    (get_deployment_status_ok2 envHealthy healthyA dOk [KUBE_AVAILABLE_TYPE] rfl rfl)
    (by decide)
    (get_deployment_status_ok2 envHealthy healthyB dOk [KUBE_AVAILABLE_TYPE] rfl rfl)
    (by decide)

/-- C7: every deployment body submitted by a replace call of the affinity
mutator carries exactly the affinity built from the caller-supplied
avoid-list: one preferred scheduling term of weight 1 whose single match
expression uses key kubernetes.io/hostname with operator In and value set
exactly the avoid-list. -/
theorem c7_affinity_payload (env : Env) (values : List String) (st : St) (b : Deployment)
    (hb : Ev.replaceCall b ∈ (update_pod_affinity env values st).2.2) :
    b.affinity = some (buildAffinity values) ∧
    (buildAffinity values).node_affinity.preferred_during_scheduling_ignored_during_execution
      = [{ preference := { match_expressions :=
             [{ key := "kubernetes.io/hostname", operator := "In", values := values }] },
           weight := 1 }] := by
  refine ⟨?_, rfl⟩
  rcases mem_update_pod_affinity env values st _ hb with ⟨b2, h1, h2⟩ | h1 | h1 | h1
  · simp only [Ev.replaceCall.injEq] at h1
    subst h1
    exact h2
  · simp at h1
  · simp at h1
  · simp at h1

theorem c7_affinity_payload_witness :
    ({ dOk with affinity := some (buildAffinity ["n1"]) } : Deployment).affinity
      = some (buildAffinity ["n1"]) ∧
    (buildAffinity ["n1"]).node_affinity.preferred_during_scheduling_ignored_during_execution
      = [{ preference := { match_expressions :=
             [{ key := "kubernetes.io/hostname", operator := "In", values := ["n1"] }] },
           weight := 1 }] :=
  c7_affinity_payload envHealthy ["n1"] st0
    { dOk with affinity := some (buildAffinity ["n1"]) } (by
      rw [update_pod_affinity_first envHealthy ["n1"] st0 dOk rfl rfl]
      exact List.Mem.head _)

/-- C8: the replica count recorded at construction is never reassigned:
every operation leaves `num_replicas_before` equal to its value on entry,
construction records exactly the replica count read from the cluster, and
every replica patch issued during a run targets either zero or that
recorded value. -/
theorem c8_replicas_immutable :
    (∀ env : Env, ∀ (target : Int) (st : St),
      ((set_pod_replica env target st).2.1).num_replicas_before
        = st.num_replicas_before)
    ∧ (∀ env : Env, ∀ (values : List String) (st : St),
      ((update_pod_affinity env values st).2.1).num_replicas_before
        = st.num_replicas_before)
    ∧ (∀ env : Env, ∀ st : St,
      ((get_deployment_status env st).2.1).num_replicas_before
        = st.num_replicas_before)
    ∧ (∀ env : Env, ∀ (values : List String) (st : St),
      ((reallocate_pod env values st).2.1).num_replicas_before
        = st.num_replicas_before)
    ∧ (∀ env : Env, ∀ (n ns2 : String) (d : Deployment) (st0b : St) (evs : List Ev),
      env.read 0 = .ok d → init_operation env n ns2 = (.ok st0b, evs) →
      st0b.num_replicas_before = d.replicas)
    ∧ (∀ env : Env, ∀ (values : List String) (st : St) (tgt : Int),
      Ev.patchCall tgt ∈ (reallocate_pod env values st).2.2 →
      tgt = 0 ∨ tgt = st.num_replicas_before) := by
  refine ⟨?_, ?_, ?_, ?_, ?_, ?_⟩
  · intro env target st
    exact (pres_set_pod_replica env target st).2.2
  · intro env values st
    exact (pres_update_pod_affinity env values st).2.2
  · intro env st
    exact (pres_get_deployment_status env st).2.2
  · intro env values st
    exact (pres_reallocate_pod env values st).2.2
  · intro env n ns2 d st0b evs hread heq
    unfold init_operation at heq
    rw [hread] at heq
    simp only [Prod.mk.injEq, Except.ok.injEq] at heq
    obtain ⟨hst, -⟩ := heq
    rw [← hst]
  · intro env values st tgt hmem
    rw [trace_reallocate_pod] at hmem
    exact mem_reallocate_body_patches env values st _ hmem tgt rfl

theorem c8_replicas_immutable_witness :
    ((set_pod_replica envHealthy 5 st0).2.1).num_replicas_before
      = st0.num_replicas_before ∧
    st0.num_replicas_before = dOk.replicas ∧
    ((3:Int) = 0 ∨ (3:Int) = st0.num_replicas_before) := by
  obtain ⟨st9, tr, heq, -, hpc, -⟩ := stuck_body_raises ["n1"]
  refine ⟨c8_replicas_immutable.1 envHealthy 5 st0, ?_, ?_⟩
  · exact c8_replicas_immutable.2.2.2.2.1 envHealthy "api" "default" dOk st0
      [Ev.readCall] rfl (by rfl)
  · refine c8_replicas_immutable.2.2.2.2.2 envStuck ["n1"] st0 3 ?_
    rw [trace_reallocate_pod, heq]
    exact hpc

/-- C9: if the status fetch after a successful soft attempt returns a
deployment whose conditions field is absent, the status projection raises
the Python `TypeError`, so `reallocate_pod` neither returns a
`{deployment_name, status}` result nor raises the workflow exception
type. -/
theorem c9_none_conditions (env : Env) (values : List String) (st : St)
    (st1 : St) (tr1 : List Ev) (d : Deployment)
    (hsoft : update_pod_affinity env values st = (.ok (), st1, tr1))
    (hread : env.read st1.reads = .ok d)
    (hcond : d.conditions = none) :
    (reallocate_pod env values st).1 = .error .typeError ∧
    (∀ r : RunResult, (reallocate_pod env values st).1 ≠ .ok r) ∧
    (reallocate_pod env values st).1 ≠ .error .kubernetesException := by
  have hstat := get_deployment_status_none hread hcond
  have hbody := reallocate_body_decomp_statErr env values st st1 tr1 .typeError
    _ _ hsoft hstat
  rw [reallocate_pod_of_err env values st .typeError _ _ hbody (by simp)]
  refine ⟨rfl, ?_, by simp⟩
  intro r h
  simp at h

theorem c9_none_conditions_witness :
    (reallocate_pod envNoCond ["n1"] st0).1 = .error .typeError :=
  (c9_none_conditions envNoCond ["n1"] st0 _ _ dNoCond (by rfl) (by rfl) rfl).1

/-- C10: if the snapshot refetch between two replace attempts raises an
`ApiException` whose reason is not Not Found, the error propagates at once
out of the affinity mutator — after a single replace attempt, with no
replica rollback, the trace being exactly one replace, one sleep and the
failed read — and, not being the caught exception type, it escapes
`reallocate_pod` to the caller. -/
theorem c10_refetch_error_escapes (env : Env) (values : List String) (st : St)
    (reason : String)
    (hrep : env.replace st.replaces = false)
    (hread : env.read st.reads = .err reason)
    (hne : reason ≠ "Not Found") :
    (∃ st9, update_pod_affinity env values st =
      (.error (.apiError reason), st9,
       [.replaceCall { st.resource with affinity := some (buildAffinity values) },
        .sleep 1, .readCall])) ∧
    (reallocate_pod env values st).1 = .error (.apiError reason) := by
  have hloop : update_affinity_loop env (buildAffinity values) 60 st =
      (.error (.apiError reason),
       { st with
         resource := { st.resource with affinity := some (buildAffinity values) },
         replaces := st.replaces + 1, reads := st.reads + 1 },
       [.replaceCall { st.resource with affinity := some (buildAffinity values) },
        .sleep 1, .readCall]) := by
    show update_affinity_loop env (buildAffinity values) (59 + 1) st = _
    rw [update_affinity_loop_succ_err env (buildAffinity values) 59 st hrep]
    simp only [get_deployment_info, hread, if_neg hne]
  have hupd : update_pod_affinity env values st =
      (.error (.apiError reason),
       { st with
         resource := { st.resource with affinity := some (buildAffinity values) },
         replaces := st.replaces + 1, reads := st.reads + 1 },
       [.replaceCall { st.resource with affinity := some (buildAffinity values) },
        .sleep 1, .readCall]) := by
    unfold update_pod_affinity
    rw [hloop, bindStep_err]
  refine ⟨⟨_, hupd⟩, ?_⟩
  have hbody := reallocate_body_decomp_softErr env values st _ _ _ hupd
  rw [reallocate_pod_of_err env values st (.apiError reason) _ _ hbody (by simp)]

theorem c10_refetch_error_escapes_witness :
    (∃ st9, update_pod_affinity envRefetchBoom ["n1"] st0 =
      (.error (.apiError ("Boom")), st9,
       [.replaceCall { st0.resource with affinity := some (buildAffinity ["n1"]) },
        .sleep 1, .readCall])) ∧
    (reallocate_pod envRefetchBoom ["n1"] st0).1 = .error (.apiError ("Boom")) :=
  c10_refetch_error_escapes envRefetchBoom ["n1"] st0 "Boom" rfl rfl (by decide)

end Kube
